import Mathlib

/-!
Verification development for the Pico2 18-channel servo driver firmware.

Each C module relevant to the checked properties is translated into a
shallow Lean embedding:
  - machine integers become Nat / Int with explicit wrap-around where the
    width matters,
  - 32-bit float arithmetic becomes exact rational arithmetic; the libm
    square root (whose exact float values are not representable here) is
    threaded through as an explicit function parameter, and a concrete
    rational approximation ratSqrt is provided for closed evaluations,
  - the static singletons become explicit state values passed through the
    functions.

Sections, in order: ring buffer (utils/ring_buffer.c), CRC16 and the
frame protocol (communication/protocol.c), flash parameter store
(storage/flash_storage.c), 180-degree servo mapping
(servo/servo_control.c), 360-degree servo mapping (servo/servo_360.c),
interpolator (motion/interpolation.c), and the look-ahead planner
(motion/planner.c).
-/

namespace ServoFw

/-! ## Ring buffer (src/utils/ring_buffer.c)

The backing byte array is modelled as a total map from index to byte, the
struct fields mirror ring_buffer_t. -/

/-- State of a ring_buffer_t: backing store, capacity, producer index,
consumer index and occupancy. -/
structure RingBuffer where
  buf : Nat → Nat
  size : Nat
  head : Nat
  tail : Nat
  count : Nat

/-- Embedding of ring_buffer_init: zeroed indices over a caller-supplied
backing array. -/
def ring_buffer_init (buf : Nat → Nat) (size : Nat) : RingBuffer :=
  { buf := buf, size := size, head := 0, tail := 0, count := 0 }

/-- Embedding of ring_buffer_put: on a full buffer return false and leave
the state untouched, otherwise store at head, advance head modulo size and
increment count. -/
def ring_buffer_put (rb : RingBuffer) (data : Nat) : Bool × RingBuffer :=
  if rb.count ≥ rb.size then
    (false, rb)
  else
    (true,
      { rb with
        buf := fun i => if i = rb.head then data else rb.buf i
        head := (rb.head + 1) % rb.size
        count := rb.count + 1 })

/-- Embedding of ring_buffer_get: on an empty buffer return none, otherwise
return the byte at tail, advance tail modulo size and decrement count. -/
def ring_buffer_get (rb : RingBuffer) : Option Nat × RingBuffer :=
  if rb.count = 0 then
    (none, rb)
  else
    (some (rb.buf rb.tail),
      { rb with
        tail := (rb.tail + 1) % rb.size
        count := rb.count - 1 })

/-- Abstraction function: the buffered bytes in consumption order. -/
def RingBuffer.toList (rb : RingBuffer) : List Nat :=
  (List.range rb.count).map (fun i => rb.buf ((rb.tail + i) % rb.size))

/-- Structural invariant of a ring buffer state: positive capacity, the
consumer index reduced, occupancy bounded by capacity, and the producer
index determined by consumer index and occupancy. -/
def RingBuffer.Wf (rb : RingBuffer) : Prop :=
  0 < rb.size ∧ rb.tail < rb.size ∧ rb.count ≤ rb.size ∧
    rb.head = (rb.tail + rb.count) % rb.size

/-- One client operation on the byte ring. -/
inductive RBOp where
  | put (b : Nat)
  | get

/-- Run a sequence of put/get operations, collecting the bytes that the
get operations returned, in order. -/
def rbRun : RingBuffer → List RBOp → List Nat × RingBuffer
  | rb, [] => ([], rb)
  | rb, RBOp.put b :: ops => rbRun (ring_buffer_put rb b).2 ops
  | rb, RBOp.get :: ops =>
      let s := ring_buffer_get rb
      let r := rbRun s.2 ops
      (s.1.toList ++ r.1, r.2)

/-- The unbounded-queue specification of the same operation sequence: a put
appends when there is room, a get removes and emits the oldest element. -/
def qRun (size : Nat) : List Nat → List RBOp → List Nat × List Nat
  | q, [] => ([], q)
  | q, RBOp.put b :: ops => qRun size (if q.length < size then q ++ [b] else q) ops
  | q, RBOp.get :: ops =>
      let r := qRun size q.tail ops
      (q.head?.toList ++ r.1, r.2)

theorem mod_ne_of_lt {t i j n : Nat} (hij : i < j) (hj : j < n) :
    (t + i) % n ≠ (t + j) % n := by
  intro h
  have hd : (n : Int) ∣ ((t + j : Nat) : Int) - ((t + i : Nat) : Int) :=
    Nat.modEq_iff_dvd.mp h
  have hd2 : (n : Int) ∣ ((j : Int) - (i : Int)) := by
    have : ((t + j : Nat) : Int) - ((t + i : Nat) : Int) = (j : Int) - (i : Int) := by
      push_cast
      ring
    rwa [this] at hd
  have hle : (n : Int) ≤ (j : Int) - (i : Int) :=
    Int.le_of_dvd (by omega) hd2
  omega

theorem ring_buffer_put_full (rb : RingBuffer) (b : Nat) (h : rb.count ≥ rb.size) :
    ring_buffer_put rb b = (false, rb) := by
  simp [ring_buffer_put, h]

theorem ring_buffer_put_spec (rb : RingBuffer) (b : Nat) (hwf : rb.Wf)
    (h : rb.count < rb.size) :
    (ring_buffer_put rb b).1 = true ∧ (ring_buffer_put rb b).2.Wf ∧
      (ring_buffer_put rb b).2.toList = rb.toList ++ [b] ∧
      (ring_buffer_put rb b).2.size = rb.size := by
  obtain ⟨hs, ht, hc, hh⟩ := hwf
  have hnot : ¬ rb.count ≥ rb.size := by omega
  have hput : ring_buffer_put rb b =
      (true,
        { rb with
          buf := fun i => if i = rb.head then b else rb.buf i
          head := (rb.head + 1) % rb.size
          count := rb.count + 1 }) := by
    simp [ring_buffer_put, hnot]
  rw [hput]
  refine ⟨rfl, ⟨hs, ht, by simpa using h, ?_⟩, ?_, rfl⟩
  · show (rb.head + 1) % rb.size = (rb.tail + (rb.count + 1)) % rb.size
    rw [hh, Nat.mod_add_mod]
    ring_nf
  · show (List.range (rb.count + 1)).map _ = rb.toList ++ [b]
    rw [List.range_succ, List.map_append, RingBuffer.toList]
    congr 1
    · apply List.map_congr_left
      intro i hi
      have hi2 : i < rb.count := List.mem_range.mp hi
      have hne : (rb.tail + i) % rb.size ≠ rb.head := by
        rw [hh]
        exact mod_ne_of_lt hi2 h
      simp [hne]
    · simp [hh]

theorem ring_buffer_get_empty (rb : RingBuffer) (h : rb.count = 0) :
    ring_buffer_get rb = (none, rb) := by
  simp [ring_buffer_get, h]

theorem ring_buffer_get_spec (rb : RingBuffer) (hwf : rb.Wf) (h : 0 < rb.count) :
    (ring_buffer_get rb).1 = rb.toList.head? ∧ (ring_buffer_get rb).2.Wf ∧
      (ring_buffer_get rb).2.toList = rb.toList.tail ∧
      (ring_buffer_get rb).2.size = rb.size := by
  obtain ⟨hs, ht, hc, hh⟩ := hwf
  have hnz : ¬ rb.count = 0 := by omega
  obtain ⟨k, hk⟩ : ∃ k, rb.count = k + 1 := ⟨rb.count - 1, by omega⟩
  have hhead : rb.toList.head? = some (rb.buf rb.tail) := by
    simp only [RingBuffer.toList, hk, List.range_succ_eq_map, List.map_cons, List.head?_cons]
    rw [Nat.add_zero, Nat.mod_eq_of_lt ht]
  have hget : ring_buffer_get rb =
      (some (rb.buf rb.tail),
        { rb with
          tail := (rb.tail + 1) % rb.size
          count := rb.count - 1 }) := by
    simp [ring_buffer_get, hnz]
  rw [hget]
  refine ⟨by rw [hhead], ⟨hs, Nat.mod_lt _ hs, by simpa using by omega, ?_⟩, ?_, rfl⟩
  · show rb.head = ((rb.tail + 1) % rb.size + (rb.count - 1)) % rb.size
    rw [hh, Nat.mod_add_mod, hk]
    congr 1
    omega
  · show (List.range (rb.count - 1)).map _ = rb.toList.tail
    rw [RingBuffer.toList, hk]
    rw [List.range_succ_eq_map, List.map_cons, List.tail_cons, List.map_map]
    simp only [Nat.add_sub_cancel]
    apply List.map_congr_left
    intro i _
    simp only [Function.comp_apply]
    congr 1
    rw [Nat.mod_add_mod]
    congr 1
    omega

theorem rbRun_sim (ops : List RBOp) :
    ∀ rb : RingBuffer, rb.Wf →
      (rbRun rb ops).1 = (qRun rb.size rb.toList ops).1 ∧
        (rbRun rb ops).2.Wf ∧
        (rbRun rb ops).2.toList = (qRun rb.size rb.toList ops).2 ∧
        (rbRun rb ops).2.size = rb.size := by
  induction ops with
  | nil => intro rb hwf; exact ⟨rfl, hwf, rfl, rfl⟩
  | cons op ops ih =>
      intro rb hwf
      cases op with
      | put b =>
          by_cases h : rb.count < rb.size
          · obtain ⟨h1, h2, h3, h4⟩ := ring_buffer_put_spec rb b hwf h
            obtain ⟨i1, i2, i3, i4⟩ := ih (ring_buffer_put rb b).2 h2
            have hlen : rb.toList.length = rb.count := by
              simp [RingBuffer.toList]
            have hlt : rb.toList.length < rb.size := by omega
            refine ⟨?_, i2, ?_, by rw [← h4]; exact i4⟩
            · simp only [rbRun, qRun, if_pos hlt]
              rw [i1, h3, h4]
            · simp only [rbRun, qRun, if_pos hlt]
              rw [i3, h3, h4]
          · have hfull : rb.count ≥ rb.size := by omega
            have heq := ring_buffer_put_full rb b hfull
            obtain ⟨i1, i2, i3, i4⟩ := ih rb hwf
            have hlen : rb.toList.length = rb.count := by
              simp [RingBuffer.toList]
            have hnlt : ¬ rb.toList.length < rb.size := by omega
            refine ⟨?_, ?_, ?_, ?_⟩
            · simp only [rbRun, qRun, if_neg hnlt, heq]
              exact i1
            · simpa only [rbRun, heq] using i2
            · simp only [rbRun, qRun, if_neg hnlt, heq]
              exact i3
            · simpa only [rbRun, heq] using i4
      | get =>
          by_cases h : 0 < rb.count
          · obtain ⟨h1, h2, h3, h4⟩ := ring_buffer_get_spec rb hwf h
            obtain ⟨i1, i2, i3, i4⟩ := ih (ring_buffer_get rb).2 h2
            refine ⟨?_, i2, ?_, by rw [← h4]; exact i4⟩
            · simp only [rbRun, qRun]
              rw [i1, h1, h3, h4]
            · simp only [rbRun, qRun]
              rw [i3, h3, h4]
          · have hz : rb.count = 0 := by omega
            have heq := ring_buffer_get_empty rb hz
            obtain ⟨i1, i2, i3, i4⟩ := ih rb hwf
            have htl : rb.toList = [] := by
              simp [RingBuffer.toList, hz]
            refine ⟨?_, ?_, ?_, ?_⟩
            · simp only [rbRun, qRun, heq, htl]
              simpa [htl] using i1
            · simpa only [rbRun, heq] using i2
            · simp only [rbRun, qRun, heq, htl]
              simpa [htl] using i3
            · simpa only [rbRun, heq] using i4

/-- C10: the ring buffer never exceeds its capacity on any reachable state,
a put on a full buffer returns false leaving the whole state unchanged and
succeeds otherwise, and any interleaved put/get run emits exactly the bytes
of the unbounded FIFO specification, in order. -/
theorem ring_buffer_fifo_c10 (buf0 : Nat → Nat) (size : Nat) (hsz : 0 < size)
    (ops : List RBOp) :
    (∀ n, (rbRun (ring_buffer_init buf0 size) (ops.take n)).2.count ≤ size) ∧
    (∀ n b,
      ((rbRun (ring_buffer_init buf0 size) (ops.take n)).2.count = size →
        ring_buffer_put (rbRun (ring_buffer_init buf0 size) (ops.take n)).2 b =
          (false, (rbRun (ring_buffer_init buf0 size) (ops.take n)).2)) ∧
      ((rbRun (ring_buffer_init buf0 size) (ops.take n)).2.count < size →
        (ring_buffer_put (rbRun (ring_buffer_init buf0 size) (ops.take n)).2 b).1 = true)) ∧
    (rbRun (ring_buffer_init buf0 size) ops).1 = (qRun size [] ops).1 := by
  have hwf : (ring_buffer_init buf0 size).Wf := by
    refine ⟨hsz, hsz, by simp [ring_buffer_init], by simp [ring_buffer_init]⟩
  have hinit : (ring_buffer_init buf0 size).toList = [] := by
    simp [RingBuffer.toList, ring_buffer_init]
  have hsize : (ring_buffer_init buf0 size).size = size := rfl
  refine ⟨?_, ?_, ?_⟩
  · intro n
    obtain ⟨-, ⟨-, -, hc, -⟩, -, h4⟩ := rbRun_sim (ops.take n) _ hwf
    omega
  · intro n b
    obtain ⟨-, hwf2, -, h4⟩ := rbRun_sim (ops.take n) _ hwf
    constructor
    · intro hfull
      exact ring_buffer_put_full _ b (by omega)
    · intro hlt
      exact (ring_buffer_put_spec _ b hwf2 (by omega)).1
  · obtain ⟨h1, -, -, -⟩ := rbRun_sim ops _ hwf
    rw [h1, hinit, hsize]

/-! ## CRC-16 and frame protocol (src/communication/protocol.c)

Bytes are Nat values below 256; 16-bit registers carry an explicit
modulus. -/

/-- One shift step of the CCITT CRC register: shift left, xor the
polynomial 0x1021 when the top bit was set, truncated to 16 bits. -/
def crc16_step (c : Nat) : Nat :=
  if c.testBit 15 then ((c * 2) ^^^ 0x1021) % 65536 else (c * 2) % 65536

/-- Fold one input byte into the CRC register (xor into the top byte, then
eight shift steps). -/
def crc16_update (c b : Nat) : Nat :=
  crc16_step^[8] ((c ^^^ b * 256) % 65536)

/-- Modelled from the spec: crc16_ccitt is declared in
communication/crc16.h but its .c implementation is not in the source
tree. Per spec section 4.3 it is CRC-16/CCITT with polynomial 0x1021,
initial value 0xFFFF, no reflection and no final xor, processed most
significant bit first. -/
def crc16_ccitt (data : List Nat) : Nat :=
  data.foldl crc16_update 0xFFFF

/-- Parser states of parse_state_t. -/
inductive ParseState where
  | idle | header1 | header2 | gotId | gotCmd | gotLen | inData | crcHigh | crcLow | complete
  deriving DecidableEq

/-- Fields of protocol_frame_t that the parser fills in. The 128-byte data
array together with the running write index is modelled as the list of
bytes written for the current frame (writes are sequential from index 0,
and the CRC check reads exactly the indices written). -/
structure ProtocolFrame where
  id : Nat
  cmd : Nat
  len : Nat
  data : List Nat
  crc : Nat

/-- State of protocol_parser_t (the timing fields, which only feed the
separate timeout path, are omitted). -/
structure ProtocolParser where
  state : ParseState
  frame : ProtocolFrame
  dataIndex : Nat
  errorCount : Nat
  frameCount : Nat

/-- Embedding of protocol_parser_init. -/
def protocol_parser_init : ProtocolParser :=
  { state := ParseState.idle
    frame := { id := 0, cmd := 0, len := 0, data := [], crc := 0 }
    dataIndex := 0
    errorCount := 0
    frameCount := 0 }

/-- Embedding of protocol_parser_reset: back to idle, write index cleared. -/
def protocol_parser_reset (p : ProtocolParser) : ProtocolParser :=
  { p with state := ParseState.idle, dataIndex := 0 }

/-- Embedding of protocol_parse_byte. Returns the C function result
(true exactly when a frame completed) together with the next parser
state. -/
def protocol_parse_byte (p : ProtocolParser) (byte : Nat) : Bool × ProtocolParser :=
  match p.state with
  | ParseState.idle =>
      if byte = 0xFF then (false, { p with state := ParseState.header1 }) else (false, p)
  | ParseState.header1 =>
      if byte = 0xFE then (false, { p with state := ParseState.header2 })
      else if byte = 0xFF then (false, p)
      else (false, protocol_parser_reset p)
  | ParseState.header2 =>
      (false, { p with frame := { p.frame with id := byte }, state := ParseState.gotId })
  | ParseState.gotId =>
      (false, { p with frame := { p.frame with cmd := byte }, state := ParseState.gotCmd })
  | ParseState.gotCmd =>
      if byte > 128 then
        (false, { protocol_parser_reset { p with frame := { p.frame with len := byte } } with
                    errorCount := p.errorCount + 1 })
      else if byte = 0 then
        (false, { p with frame := { p.frame with len := byte, data := [] }
                       , dataIndex := 0, state := ParseState.crcHigh })
      else
        (false, { p with frame := { p.frame with len := byte, data := [] }
                       , dataIndex := 0, state := ParseState.inData })
  | ParseState.gotLen =>
      (false, { protocol_parser_reset p with errorCount := p.errorCount + 1 })
  | ParseState.inData =>
      let fr := { p.frame with data := p.frame.data ++ [byte] }
      if p.dataIndex + 1 ≥ p.frame.len then
        (false, { p with frame := fr, dataIndex := p.dataIndex + 1, state := ParseState.crcHigh })
      else
        (false, { p with frame := fr, dataIndex := p.dataIndex + 1 })
  | ParseState.crcHigh =>
      (false, { p with frame := { p.frame with crc := byte * 256 }, state := ParseState.crcLow })
  | ParseState.crcLow =>
      let rxCrc := p.frame.crc ||| byte
      let calcCrc := crc16_ccitt ([p.frame.id, p.frame.cmd, p.frame.len] ++ p.frame.data)
      if calcCrc = rxCrc then
        (true, { p with frame := { p.frame with crc := rxCrc }
                      , state := ParseState.complete, frameCount := p.frameCount + 1 })
      else
        (false, { protocol_parser_reset { p with frame := { p.frame with crc := rxCrc } } with
                    errorCount := p.errorCount + 1 })
  | ParseState.complete =>
      (false, protocol_parser_reset p)

/-- Feed a byte sequence through the parser. -/
def runParser (p : ProtocolParser) (bytes : List Nat) : ProtocolParser :=
  bytes.foldl (fun q b => (protocol_parse_byte q b).2) p

/-- Embedding of protocol_build_frame, for a sufficiently large output
buffer: returns the written length and the emitted bytes. Note that the C
code computes the CRC over the whole buffer prefix of length 5 + len,
which includes the two header bytes. -/
def protocol_build_frame (id cmd : Nat) (data : List Nat) : Nat × List Nat :=
  if data.length > 128 then (0, [])
  else
    let base := [0xFF, 0xFE, id % 256, cmd % 256, data.length] ++ data
    let crc := crc16_ccitt base
    (5 + data.length + 2, base ++ [crc / 256, crc % 256])

set_option maxRecDepth 8000 in
/-- C1: refuted as stated; the builder and the parser disagree on the CRC
domain. protocol_build_frame computes its CRC over the 0xFF 0xFE header
bytes as well, while protocol_parse_byte verifies the CRC over id, cmd,
len and data only, so the parser rejects the frame built for
id = 0, cmd = 1, empty data: after feeding all built bytes the parser is
not in the complete state (the CRC mismatch reset it to idle). -/
theorem protocol_build_frame_rejected_c1 :
    (runParser protocol_parser_init (protocol_build_frame 0 1 []).2).state ≠
      ParseState.complete ∧
    (runParser protocol_parser_init (protocol_build_frame 0 1 []).2).state =
      ParseState.idle ∧
    (runParser protocol_parser_init (protocol_build_frame 0 1 []).2).errorCount = 1 := by
  decide

/-! ## Flash parameter store (src/storage/flash_storage.c)

A flash_params_t value is viewed, as the C code itself does through its
byte pointer, as its sequence of bytes: magic (u32 little-endian, offset
0), version (offset 4), servo_count (offset 5), checksum (u16
little-endian, offset 6), then 18 calibration entries of 8 bytes, 18
saved positions of 4 bytes, positions_valid, and 55 reserved bytes, for
sizeof(flash_params_t) = 280 on the target. -/

/-- Size in bytes of flash_params_t: 8 + 18 * 8 + 18 * 4 + 1 + 55. -/
def flashParamsSize : Nat := 280

/-- Byte of the record at a given offset. -/
def recByte (r : List Nat) (i : Nat) : Nat := r.getD i 0

/-- The magic field, a little-endian u32 at offset 0. -/
def recMagic (r : List Nat) : Nat :=
  recByte r 0 + 256 * recByte r 1 + 65536 * recByte r 2 + 16777216 * recByte r 3

/-- The version field at offset 4. -/
def recVersion (r : List Nat) : Nat := recByte r 4

/-- The servo_count field at offset 5. -/
def recServoCount (r : List Nat) : Nat := recByte r 5

/-- The checksum field, a little-endian u16 at offset 6. -/
def recChecksum (r : List Nat) : Nat := recByte r 6 + 256 * recByte r 7

/-- Embedding of flash_calculate_checksum: u16 sum of the bytes before the
checksum field plus the bytes after it. -/
def flash_calculate_checksum (r : List Nat) : Nat :=
  let s1 := (List.range 6).foldl (fun s i => (s + recByte r i) % 65536) 0
  (List.range' 8 (flashParamsSize - 8)).foldl (fun s i => (s + recByte r i) % 65536) s1

/-- Embedding of flash_verify_params: magic, version, servo count and
checksum checks in order. -/
def flash_verify_params (r : List Nat) : Bool :=
  if recMagic r ≠ 0x53565250 then false
  else if recVersion r ≠ 1 then false
  else if recServoCount r ≠ 18 then false
  else if flash_calculate_checksum r ≠ recChecksum r then false
  else true

/-- Embedding of flash_load_params: copy the stored record out of flash
and report whether flash_verify_params accepted it. -/
def flash_load_params (stored : List Nat) : Bool × List Nat :=
  (flash_verify_params stored, stored)

/-- C7: flash_verify_params accepts a record exactly when the magic is
0x53565250, the version is 1, the servo count is 18 and the byte sum of
the record outside the two checksum bytes at offset 6 equals the stored
checksum; and flash_load_params fails exactly when that verification
fails on the stored record. -/
theorem flash_verify_params_iff_c7 (r : List Nat) :
    (flash_verify_params r = true ↔
      recMagic r = 0x53565250 ∧ recVersion r = 1 ∧ recServoCount r = 18 ∧
        flash_calculate_checksum r = recChecksum r) ∧
    ((flash_load_params r).1 = false ↔ flash_verify_params r = false) := by
  constructor
  · unfold flash_verify_params
    split_ifs with h1 h2 h3 h4
    · simp
      intro h
      exact absurd h h1
    · simp
      intro _ h
      exact absurd h h2
    · simp
      intro _ _ h
      exact absurd h h3
    · simp
      intro _ _ _ h
      exact absurd h h4
    · simp
      exact ⟨not_not.mp h1, not_not.mp h2, not_not.mp h3, not_not.mp h4⟩
  · unfold flash_load_params
    cases h : flash_verify_params r <;> simp [h]

/-! ## 180-degree servo mapping (src/servo/servo_control.c)

The per-servo calibration table lookup of servo_angle_to_pulse is made
explicit: the function takes the calibration of the addressed servo (an
id below 18) as an argument. Float angles and intermediate pulses become
exact rationals; the final (uint16_t) conversion of the clamped
non-negative pulse is truncation, i.e. the floor. -/

/-- Fields of servo_calibration_t. -/
structure ServoCalibration where
  min_pulse_us : Nat
  max_pulse_us : Nat
  offset_us : Int
  reverse : Bool

/-- Acceptance condition of servo_set_calibration: limits inside the
global 500..2500 range and properly ordered; the offset is not checked. -/
def servo_calibration_ok (cal : ServoCalibration) : Prop :=
  500 ≤ cal.min_pulse_us ∧ cal.max_pulse_us ≤ 2500 ∧ cal.min_pulse_us < cal.max_pulse_us

/-- Embedding of servo_angle_to_pulse for a servo with the given
calibration: clamp the angle to 0..180, reverse if configured, map
linearly onto the calibrated pulse range, add the offset, clamp to the
global 500..2500 range, truncate. -/
def servo_angle_to_pulse (cal : ServoCalibration) (angle : ℚ) : Nat :=
  let a1 : ℚ := if angle < 0 then 0 else angle
  let a2 : ℚ := if a1 > 180 then 180 else a1
  let a3 : ℚ := if cal.reverse then 180 - a2 else a2
  let pulse : ℚ :=
    (cal.min_pulse_us : ℚ) + a3 / 180 * ((cal.max_pulse_us : ℚ) - (cal.min_pulse_us : ℚ))
      + (cal.offset_us : ℚ)
  let p1 : ℚ := if pulse < 500 then 500 else pulse
  let p2 : ℚ := if p1 > 2500 then 2500 else p1
  (⌊p2⌋).toNat

/-- C8: refuted as stated; the final clamp of servo_angle_to_pulse is the
global 500..2500 range, not the per-axis calibration range, so a nonzero
offset pushes the pulse outside the calibration range: the calibration
(min 1000, max 2000, offset 300) is accepted by servo_set_calibration,
yet the pulse for angle 180 is 2300, above max_pulse_us = 2000. -/
theorem servo_angle_to_pulse_escapes_axis_range_c8 :
    servo_calibration_ok { min_pulse_us := 1000, max_pulse_us := 2000
                         , offset_us := 300, reverse := false } ∧
    servo_angle_to_pulse { min_pulse_us := 1000, max_pulse_us := 2000
                         , offset_us := 300, reverse := false } 180 = 2300 ∧
    2000 < servo_angle_to_pulse { min_pulse_us := 1000, max_pulse_us := 2000
                                , offset_us := 300, reverse := false } 180 := by
  refine ⟨⟨by norm_num, by norm_num, by norm_num⟩, ?_, ?_⟩ <;>
    · norm_num [servo_angle_to_pulse]
      all_goals decide

/-- C8 (amended): for a calibration accepted by servo_set_calibration the
pulse always lies in the global range 500..2500, and when the calibration
offset is zero it also lies in the per-axis range
min_pulse_us..max_pulse_us. -/
theorem servo_angle_to_pulse_bounds_c8 (cal : ServoCalibration) (angle : ℚ)
    (hok : servo_calibration_ok cal) :
    500 ≤ servo_angle_to_pulse cal angle ∧ servo_angle_to_pulse cal angle ≤ 2500 ∧
      (cal.offset_us = 0 →
        cal.min_pulse_us ≤ servo_angle_to_pulse cal angle ∧
          servo_angle_to_pulse cal angle ≤ cal.max_pulse_us) := by
  obtain ⟨h1, h2, h3⟩ := hok
  simp only [servo_angle_to_pulse]
  set a1 : ℚ := if angle < 0 then 0 else angle with ha1
  set a2 : ℚ := if a1 > 180 then 180 else a1 with ha2
  set a3 : ℚ := if cal.reverse then 180 - a2 else a2 with ha3
  have ha2b : 0 ≤ a2 ∧ a2 ≤ 180 := by
    rw [ha2, ha1]
    split_ifs <;> constructor <;> linarith
  have ha3b : 0 ≤ a3 ∧ a3 ≤ 180 := by
    rw [ha3]
    split_ifs <;> constructor <;> linarith [ha2b.1, ha2b.2]
  set pulse : ℚ :=
    (cal.min_pulse_us : ℚ) + a3 / 180 * ((cal.max_pulse_us : ℚ) - (cal.min_pulse_us : ℚ))
      + (cal.offset_us : ℚ) with hpulse
  have hrange : (0:ℚ) ≤ (cal.max_pulse_us : ℚ) - (cal.min_pulse_us : ℚ) := by
    have hc : (cal.min_pulse_us : ℚ) ≤ (cal.max_pulse_us : ℚ) := by
      exact_mod_cast Nat.le_of_lt h3
    linarith
  have hpb : (cal.min_pulse_us : ℚ) + (cal.offset_us : ℚ) ≤ pulse ∧
      pulse ≤ (cal.max_pulse_us : ℚ) + (cal.offset_us : ℚ) := by
    constructor
    · have hz : 0 ≤ a3 / 180 * ((cal.max_pulse_us : ℚ) - (cal.min_pulse_us : ℚ)) := by
        apply mul_nonneg
        · linarith [ha3b.1]
        · exact hrange
      rw [hpulse]
      linarith
    · have hz : a3 / 180 * ((cal.max_pulse_us : ℚ) - (cal.min_pulse_us : ℚ)) ≤
          (cal.max_pulse_us : ℚ) - (cal.min_pulse_us : ℚ) := by
        nlinarith [ha3b.1, ha3b.2, hrange]
      rw [hpulse]
      linarith
  set p1 : ℚ := if pulse < 500 then 500 else pulse with hp1
  set p2 : ℚ := if p1 > 2500 then 2500 else p1 with hp2
  have hp2b : (500:ℚ) ≤ p2 ∧ p2 ≤ 2500 := by
    rw [hp2, hp1]
    split_ifs <;> constructor <;> linarith
  have hfl : (500:ℤ) ≤ ⌊p2⌋ := by
    rw [Int.le_floor]
    exact_mod_cast hp2b.1
  have hfu : ⌊p2⌋ ≤ (2500:ℤ) := by
    have hc : p2 ≤ ((2500:ℤ) : ℚ) := by exact_mod_cast hp2b.2
    calc ⌊p2⌋ ≤ ⌊((2500:ℤ) : ℚ)⌋ := Int.floor_le_floor hc
    _ = (2500:ℤ) := Int.floor_intCast 2500
  refine ⟨?_, ?_, ?_⟩
  · omega
  · omega
  · intro hoff
    have hminq : (500:ℚ) ≤ (cal.min_pulse_us : ℚ) := by exact_mod_cast h1
    have hmaxq : (cal.max_pulse_us : ℚ) ≤ 2500 := by exact_mod_cast h2
    rw [hoff] at hpb
    push_cast at hpb
    have hpb2 : (cal.min_pulse_us : ℚ) ≤ pulse ∧ pulse ≤ (cal.max_pulse_us : ℚ) := by
      constructor
      · linarith [hpb.1]
      · linarith [hpb.2]
    have hp1eq : p1 = pulse := by
      rw [hp1, if_neg (by push_neg; linarith [hpb2.1])]
    have hp2eq : p2 = pulse := by
      rw [hp2, hp1eq, if_neg (by push_neg; linarith [hpb2.2, hmaxq])]
    have hfl2 : (cal.min_pulse_us : ℤ) ≤ ⌊p2⌋ := by
      rw [hp2eq, Int.le_floor]
      push_cast
      exact hpb2.1
    have hfu2 : ⌊p2⌋ ≤ (cal.max_pulse_us : ℤ) := by
      rw [hp2eq]
      have hc : pulse ≤ ((cal.max_pulse_us : ℤ) : ℚ) := by exact_mod_cast hpb2.2
      calc ⌊pulse⌋ ≤ ⌊((cal.max_pulse_us : ℤ) : ℚ)⌋ := Int.floor_le_floor hc
      _ = (cal.max_pulse_us : ℤ) := Int.floor_intCast _
    constructor <;> omega

/-! ## 360-degree servo mapping (src/servo/servo_360.c)

As for the 180-degree map, the per-servo calibration lookup of
speed_to_pulse is made explicit by passing the calibration of the
addressed servo (an id below 18). All arithmetic here is C int
arithmetic, embedded as Int with Int.tdiv for the truncating division.
The local variables pulse_offset and pulse are int16_t, so every
assignment to them narrows the int value modulo 2 to the 16 into
-32768..32767 (toInt16), while the comparisons happen on the promoted
un-narrowed int expressions; the final (uint16_t) cast of the clamped
pulse reduces modulo 2 to the 16 into 0..65535 (toUInt16). -/

/-- Narrowing conversion to int16_t: reduce modulo 2 to the 16 into the
range -32768..32767, as a C assignment to an int16_t lvalue does. -/
def toInt16 (x : Int) : Int := (x + 32768) % 65536 - 32768

/-- Conversion to uint16_t: reduce modulo 2 to the 16 into 0..65535. -/
def toUInt16 (x : Int) : Nat := (x % 65536).toNat

/-- Fields of servo_360_calibration_t used by speed_to_pulse. -/
structure Servo360Calibration where
  neutral_pulse_us : Nat
  min_pulse_us : Nat
  max_pulse_us : Nat
  deadzone_us : Nat
  reverse : Bool

/-- Acceptance condition of servo_360_set_calibration: ordered limits with
the neutral pulse inside them; the deadzone is not checked. -/
def servo_360_calibration_ok (cal : Servo360Calibration) : Prop :=
  cal.min_pulse_us < cal.max_pulse_us ∧
    cal.min_pulse_us ≤ cal.neutral_pulse_us ∧ cal.neutral_pulse_us ≤ cal.max_pulse_us

/-- Embedding of speed_to_pulse: clamp the speed to -100..100, return the
neutral pulse below the 5 percent threshold, flip the sign when reversed,
offset the neutral pulse by speed times the global constant range
(SERVO_360_MAX_PULSE_US - SERVO_360_MIN_PULSE_US = 2000) over 200, apply
the deadzone compensation, clamp to the calibrated range. pulse_offset
and pulse are int16_t in the source, so each assignment to them narrows
through toInt16, while each comparison reads the promoted int values;
the return casts pulse to uint16_t through toUInt16. -/
def speed_to_pulse (cal : Servo360Calibration) (speed : Int) : Nat :=
  let s1 : Int := if speed > 100 then 100 else speed
  let s2 : Int := if s1 < -100 then -100 else s1
  if s2.natAbs < 5 then cal.neutral_pulse_us
  else
    let s3 : Int := if cal.reverse then -s2 else s2
    let pulse_offset : Int := toInt16 (Int.tdiv (s3 * (2500 - 500)) 200)
    let pulse : Int := toInt16 ((cal.neutral_pulse_us : Int) + pulse_offset)
    let p1 : Int :=
      if 0 < s3 ∧ pulse < (cal.neutral_pulse_us : Int) + (cal.deadzone_us : Int) then
        toInt16 ((cal.neutral_pulse_us : Int) + (cal.deadzone_us : Int))
      else if s3 < 0 ∧ pulse > (cal.neutral_pulse_us : Int) - (cal.deadzone_us : Int) then
        toInt16 ((cal.neutral_pulse_us : Int) - (cal.deadzone_us : Int))
      else pulse
    let p2 : Int :=
      if p1 < (cal.min_pulse_us : Int) then toInt16 (cal.min_pulse_us : Int) else p1
    let p3 : Int :=
      if p2 > (cal.max_pulse_us : Int) then toInt16 (cal.max_pulse_us : Int) else p2
    toUInt16 p3

/-- The int16_t narrowing is observable: for the setter-accepted
calibration (neutral 40000, min 39000, max 41000, deadzone 50) at speed
10, pulse is assigned (int16_t)(40000 + 100) = -25436, the deadband push
assigns (int16_t)40050 = -25486, the lower clamp assigns
(int16_t)39000 = -26536, and the final (uint16_t) cast returns 39000,
not the unwrapped 40100. -/
theorem speed_to_pulse_int16_wrap :
    servo_360_calibration_ok { neutral_pulse_us := 40000, min_pulse_us := 39000
                             , max_pulse_us := 41000, deadzone_us := 50, reverse := false } ∧
    speed_to_pulse { neutral_pulse_us := 40000, min_pulse_us := 39000
                   , max_pulse_us := 41000, deadzone_us := 50, reverse := false } 10 = 39000 := by
  refine ⟨⟨by norm_num, by norm_num, by norm_num⟩, by decide⟩

/-- Rendering of claim C9 as stated: the base pulse offset is speed times
the per-axis calibration range over 200, then the deadzone push and the
clamp to the per-axis range. -/
def speed_to_pulse_claim_c9 (cal : Servo360Calibration) (speed : Int) : Nat :=
  if speed.natAbs < 5 then cal.neutral_pulse_us
  else
    let s3 : Int := if cal.reverse then -speed else speed
    let pulse : Int :=
      (cal.neutral_pulse_us : Int) +
        Int.tdiv (s3 * ((cal.max_pulse_us : Int) - (cal.min_pulse_us : Int))) 200
    let pushed : Int :=
      if 0 < s3 then max pulse ((cal.neutral_pulse_us : Int) + (cal.deadzone_us : Int))
      else if s3 < 0 then min pulse ((cal.neutral_pulse_us : Int) - (cal.deadzone_us : Int))
      else pulse
    (max (cal.min_pulse_us : Int) (min pushed (cal.max_pulse_us : Int))).toNat

/-- C9: refuted as stated; the base slope of speed_to_pulse uses the
global constant range SERVO_360_MAX_PULSE_US - SERVO_360_MIN_PULSE_US =
2000 (10 microseconds per percent), not the per-axis calibration range.
For the accepted calibration (neutral 1500, min 1400, max 1600, deadzone
50) and speed 6 the code yields 1500 + 60 = 1560, while the claimed
formula yields 1500 + 6 pushed up to the deadband edge 1550. -/
theorem speed_to_pulse_slope_c9 :
    servo_360_calibration_ok { neutral_pulse_us := 1500, min_pulse_us := 1400
                             , max_pulse_us := 1600, deadzone_us := 50, reverse := false } ∧
    speed_to_pulse { neutral_pulse_us := 1500, min_pulse_us := 1400
                   , max_pulse_us := 1600, deadzone_us := 50, reverse := false } 6 = 1560 ∧
    speed_to_pulse_claim_c9 { neutral_pulse_us := 1500, min_pulse_us := 1400
                            , max_pulse_us := 1600, deadzone_us := 50, reverse := false } 6 =
      1550 := by
  refine ⟨⟨by norm_num, by norm_num, by norm_num⟩, by decide, by decide⟩

/-- Rendering of claim C9 amended only in the slope: the base pulse offset
is speed times the global range 2000 over 200, i.e. 10 microseconds per
percent; threshold, sign flip, deadzone push and per-axis clamp as the
claim states them. -/
def speed_to_pulse_amended_c9 (cal : Servo360Calibration) (speed : Int) : Nat :=
  if speed.natAbs < 5 then cal.neutral_pulse_us
  else
    let s3 : Int := if cal.reverse then -speed else speed
    let pulse : Int := (cal.neutral_pulse_us : Int) + s3 * 10
    let pushed : Int :=
      if 0 < s3 then max pulse ((cal.neutral_pulse_us : Int) + (cal.deadzone_us : Int))
      else if s3 < 0 then min pulse ((cal.neutral_pulse_us : Int) - (cal.deadzone_us : Int))
      else pulse
    (max (cal.min_pulse_us : Int) (min pushed (cal.max_pulse_us : Int))).toNat

set_option maxHeartbeats 4000000 in
/-- C9 (amended): for speeds in -100..100 and an ordered calibration whose
pulse fields are small enough that no int16_t assignment wraps (maximum
pulse at most 32767, neutral plus the 1000-microsecond full-speed offset
at most 32767, neutral plus deadzone at most 32767), speed_to_pulse
computes exactly the claimed pipeline with the slope taken from the
global constants: neutral below the 5 percent threshold, otherwise the
sign-flipped speed times 10 microseconds per percent from neutral, pushed
to the deadband edge for the respective sign, clamped to the per-axis
range. -/
theorem speed_to_pulse_spec_c9 (cal : Servo360Calibration) (speed : Int)
    (hlo : -100 ≤ speed) (hhi : speed ≤ 100)
    (hord : cal.min_pulse_us ≤ cal.max_pulse_us)
    (hmax : cal.max_pulse_us ≤ 32767)
    (hne : cal.neutral_pulse_us + 1000 ≤ 32767)
    (hdz : cal.neutral_pulse_us + cal.deadzone_us ≤ 32767) :
    speed_to_pulse cal speed = speed_to_pulse_amended_c9 cal speed := by
  simp only [speed_to_pulse, speed_to_pulse_amended_c9, toInt16, toUInt16]
  have hs1 : (if speed > 100 then 100 else speed) = speed := if_neg (by omega)
  rw [hs1]
  have hs2 : (if speed < -100 then -100 else speed) = speed := if_neg (by omega)
  rw [hs2]
  have hdiv : ∀ s : Int, Int.tdiv (s * (2500 - 500)) 200 = s * 10 := by
    intro s
    have hfac : s * (2500 - 500) = s * 10 * 200 := by ring
    rw [hfac, Int.mul_tdiv_cancel _ (by norm_num)]
  by_cases hth : speed.natAbs < 5
  · rw [if_pos hth, if_pos hth]
  · rw [if_neg hth, if_neg hth, hdiv]
    rcases hrev : cal.reverse <;>
      simp only [hrev, if_true, if_false, Bool.false_eq_true] <;>
      simp only [sup_eq_max, inf_eq_min, max_def, min_def] <;>
      split_ifs <;> omega

/-- Witness for the amended C9 theorem at speed 50 with the default
calibration. -/
theorem speed_to_pulse_spec_c9_witness :
    (-100 : Int) ≤ 50 ∧ (50 : Int) ≤ 100 ∧ (500 : Nat) ≤ 2500 ∧
      (2500 : Nat) ≤ 32767 ∧ (1500 : Nat) + 1000 ≤ 32767 ∧
      (1500 : Nat) + 50 ≤ 32767 ∧
      speed_to_pulse { neutral_pulse_us := 1500, min_pulse_us := 500
                     , max_pulse_us := 2500, deadzone_us := 50, reverse := false } 50 =
        speed_to_pulse_amended_c9 { neutral_pulse_us := 1500, min_pulse_us := 500
                                  , max_pulse_us := 2500, deadzone_us := 50, reverse := false }
          50 :=
  ⟨by norm_num, by norm_num, by norm_num, by norm_num, by norm_num, by norm_num,
    speed_to_pulse_spec_c9 _ 50 (by norm_num) (by norm_num) (by norm_num) (by norm_num)
      (by norm_num) (by norm_num)⟩

/-! ## Interpolator (src/motion/interpolation.c)

Times are millisecond counters; elapsed_time and duration are uint32, so
the accumulation of delta_time wraps at 2 to the 32. Positions are exact
rationals. The trajectory pointer is NULL in every claim considered here,
so trajectory_auto_execute never acts and is omitted. The libm square
root used by calculate_trapezoid_profile is passed in as a function
parameter. -/

/-- The uint32 wrap-around modulus. -/
def uint32Mod : Nat := 4294967296

/-- interp_type_t. -/
inductive InterpType where
  | linear | sCurve | trapezoid
  deriving DecidableEq

/-- motion_state_t. -/
inductive MotionState where
  | idle | moving | reached
  deriving DecidableEq

/-- motion_params_t. -/
structure MotionParams where
  max_velocity : ℚ
  acceleration : ℚ
  deceleration : ℚ

/-- State of interpolator_t (without the trajectory pointer, which is
NULL here, and the absolute start_time used only by the trajectory
path). -/
structure Interpolator where
  start_pos : ℚ
  target_pos : ℚ
  current_pos : ℚ
  duration : Nat
  elapsed_time : Nat
  itype : InterpType
  state : MotionState
  motion_params : MotionParams
  distance : ℚ
  t_accel : ℚ
  t_const : ℚ
  t_decel : ℚ
  v_max_actual : ℚ
  use_trapezoid : Bool

/-- Embedding of interpolator_init (memset to zero, idle, linear). -/
def interpolator_init : Interpolator :=
  { start_pos := 0, target_pos := 0, current_pos := 0, duration := 0, elapsed_time := 0
  , itype := InterpType.linear, state := MotionState.idle
  , motion_params := { max_velocity := 0, acceleration := 0, deceleration := 0 }
  , distance := 0, t_accel := 0, t_const := 0, t_decel := 0, v_max_actual := 0
  , use_trapezoid := false }

/-- Embedding of interpolator_set_motion. -/
def interpolator_set_motion (i : Interpolator) (start_pos target_pos : ℚ)
    (duration : Nat) (t : InterpType) : Interpolator :=
  { i with start_pos := start_pos, target_pos := target_pos, current_pos := start_pos
         , duration := duration, elapsed_time := 0, itype := t
         , state := MotionState.moving }

/-- The CLAMP macro of the interpolator, at float type. -/
def clampQ (x lo hi : ℚ) : ℚ := if x < lo then lo else if x > hi then hi else x

/-- Embedding of interpolate_linear. -/
def interpolate_linear (start_pos end_pos ratio : ℚ) : ℚ :=
  let r := clampQ ratio 0 1
  start_pos + (end_pos - start_pos) * r

/-- Embedding of interpolate_s_curve (smoothstep). -/
def interpolate_s_curve (start_pos end_pos ratio : ℚ) : ℚ :=
  let r := clampQ ratio 0 1
  let smooth := r * r * (3 - 2 * r)
  start_pos + (end_pos - start_pos) * smooth

/-- Embedding of interpolate_trapezoid: piecewise displacement of the
trapezoidal velocity profile, scaled onto the signed distance. -/
def interpolate_trapezoid (start_pos end_pos t_current distance t_accel t_const
    t_decel v_max : ℚ) : ℚ :=
  let t_total := t_accel + t_const + t_decel
  if t_current ≤ 0 then start_pos
  else if t_current ≥ t_total then end_pos
  else
    let abs_distance := |distance|
    let dispS :=
      if t_current < t_accel then
        1 / 2 * (v_max / t_accel) * t_current * t_current
      else if t_current < t_accel + t_const then
        1 / 2 * (v_max / t_accel) * t_accel * t_accel + v_max * (t_current - t_accel)
      else
        let dt := t_current - t_accel - t_const
        1 / 2 * (v_max / t_accel) * t_accel * t_accel + v_max * t_const + v_max * dt -
          1 / 2 * (v_max / t_decel) * dt * dt
    let ratio := clampQ (dispS / abs_distance) 0 1
    start_pos + distance * ratio

/-- Position computed by the profile dispatch of interpolator_update when
the motion has not completed yet. -/
def interpUpdatePos (i : Interpolator) (elapsed2 : Nat) (ratio : ℚ) : ℚ :=
  match i.itype with
  | InterpType.linear => interpolate_linear i.start_pos i.target_pos ratio
  | InterpType.sCurve => interpolate_s_curve i.start_pos i.target_pos ratio
  | InterpType.trapezoid =>
      if i.use_trapezoid then
        interpolate_trapezoid i.start_pos i.target_pos ((elapsed2 : ℚ) / 1000) i.distance
          i.t_accel i.t_const i.t_decel i.v_max_actual
      else
        interpolate_linear i.start_pos i.target_pos ratio

/-- Embedding of interpolator_update with no trajectory bound: when not
moving, return the current position unchanged; otherwise accumulate
delta_time into the uint32 elapsed_time, form ratio = elapsed/duration
(1 when duration = 0), and on ratio at least 1 latch the target position
exactly and the reached state, else evaluate the configured profile. -/
def interpolator_update (i : Interpolator) (delta_time : Nat) : ℚ × Interpolator :=
  if i.state ≠ MotionState.moving then
    (i.current_pos, i)
  else
    let elapsed2 := (i.elapsed_time + delta_time) % uint32Mod
    let ratio : ℚ := if 0 < i.duration then (elapsed2 : ℚ) / (i.duration : ℚ) else 1
    if 1 ≤ ratio then
      (i.target_pos,
        { i with elapsed_time := elapsed2, current_pos := i.target_pos
               , state := MotionState.reached })
    else
      let pos := interpUpdatePos i elapsed2 ratio
      (pos, { i with elapsed_time := elapsed2, current_pos := pos })

/-- Output of calculate_trapezoid_profile. -/
structure TrapProfile where
  t_accel : ℚ
  t_const : ℚ
  t_decel : ℚ
  v_max_actual : ℚ

/-- Embedding of calculate_trapezoid_profile: zero profile on non-positive
inputs, the standard trapezoid when the accel and decel distances fit,
else the triangular profile with the peak speed from the square root. -/
def calculate_trapezoid_profile (s : ℚ → ℚ) (distance max_velocity acceleration
    deceleration : ℚ) : TrapProfile :=
  if distance ≤ 0 ∨ max_velocity ≤ 0 ∨ acceleration ≤ 0 ∨ deceleration ≤ 0 then
    { t_accel := 0, t_const := 0, t_decel := 0, v_max_actual := 0 }
  else
    let d_accel := max_velocity * max_velocity / (2 * acceleration)
    let d_decel := max_velocity * max_velocity / (2 * deceleration)
    if d_accel + d_decel ≤ distance then
      { t_accel := max_velocity / acceleration
      , t_const := (distance - d_accel - d_decel) / max_velocity
      , t_decel := max_velocity / deceleration
      , v_max_actual := max_velocity }
    else
      let inv_2a := 1 / (2 * acceleration)
      let inv_2d := 1 / (2 * deceleration)
      let v := s (distance / (inv_2a + inv_2d))
      { t_accel := v / acceleration, t_const := 0, t_decel := v / deceleration
      , v_max_actual := v }

/-- C5: in the triangular case (accel plus decel distance exceeding the
total distance, all inputs positive) the fit is
v_max_actual = sqrt(d / (1/(2a) + 1/(2 d_decel))), t_accel = v/a,
t_decel = v/d_decel, t_const = 0; at distance 10, v_max 100, a = d = 100
the sqrt argument is exactly 1000, and any value x behaving as the float
square root of 1000 (nonnegative, x * x within 1/100 of 1000) lies
within 1/1000 of 31.6228, with t_accel = x/100 within 1/10000 of
0.31623. -/
theorem calculate_trapezoid_triangular_c5 (s : ℚ → ℚ) (dist v a d : ℚ)
    (h1 : 0 < dist) (h2 : 0 < v) (h3 : 0 < a) (h4 : 0 < d)
    (htri : dist < v * v / (2 * a) + v * v / (2 * d)) :
    calculate_trapezoid_profile s dist v a d =
      { t_accel := s (dist / (1 / (2 * a) + 1 / (2 * d))) / a
      , t_const := 0
      , t_decel := s (dist / (1 / (2 * a) + 1 / (2 * d))) / d
      , v_max_actual := s (dist / (1 / (2 * a) + 1 / (2 * d))) } ∧
    calculate_trapezoid_profile s 10 100 100 100 =
      { t_accel := s 1000 / 100, t_const := 0, t_decel := s 1000 / 100
      , v_max_actual := s 1000 } ∧
    (0 ≤ s 1000 → |s 1000 * s 1000 - 1000| ≤ 1 / 100 →
      |(calculate_trapezoid_profile s 10 100 100 100).v_max_actual - 316228 / 10000| ≤ 1 / 1000 ∧
      |(calculate_trapezoid_profile s 10 100 100 100).t_accel - 31623 / 100000| ≤ 1 / 10000) := by
  have hg : ¬ (dist ≤ 0 ∨ v ≤ 0 ∨ a ≤ 0 ∨ d ≤ 0) := by
    push_neg
    exact ⟨h1, h2, h3, h4⟩
  have hb : ¬ (v * v / (2 * a) + v * v / (2 * d) ≤ dist) := by
    push_neg
    exact htri
  have hmain : calculate_trapezoid_profile s dist v a d =
      { t_accel := s (dist / (1 / (2 * a) + 1 / (2 * d))) / a
      , t_const := 0
      , t_decel := s (dist / (1 / (2 * a) + 1 / (2 * d))) / d
      , v_max_actual := s (dist / (1 / (2 * a) + 1 / (2 * d))) } := by
    simp only [calculate_trapezoid_profile, if_neg hg, if_neg hb]
  have hconc : calculate_trapezoid_profile s 10 100 100 100 =
      { t_accel := s 1000 / 100, t_const := 0, t_decel := s 1000 / 100
      , v_max_actual := s 1000 } := by
    have hg2 : ¬ ((10:ℚ) ≤ 0 ∨ (100:ℚ) ≤ 0 ∨ (100:ℚ) ≤ 0 ∨ (100:ℚ) ≤ 0) := by norm_num
    have hb2 : ¬ ((100:ℚ) * 100 / (2 * 100) + 100 * 100 / (2 * 100) ≤ 10) := by norm_num
    simp only [calculate_trapezoid_profile, if_neg hg2, if_neg hb2]
    norm_num
  refine ⟨hmain, hconc, ?_⟩
  intro hx0 hx1
  rw [hconc]
  have hxb : |s 1000 - 316228 / 10000| ≤ 1 / 1000 := by
    rcases abs_le.mp hx1 with ⟨hl, hr⟩
    rw [abs_le]
    constructor
    · nlinarith [sq_nonneg (s 1000 + 316218 / 10000)]
    · nlinarith [sq_nonneg (s 1000 - 316238 / 10000), sq_nonneg (s 1000 + 316238 / 10000)]
  constructor
  · exact hxb
  · rcases abs_le.mp hxb with ⟨hl, hr⟩
    rw [abs_le]
    constructor
    · simp only []
      linarith
    · simp only []
      linarith

/-- Fold a sequence of update calls (state component only). -/
def updRun (i : Interpolator) (deltas : List Nat) : Interpolator :=
  deltas.foldl (fun j d => (interpolator_update j d).2) i

theorem interpolator_update_returns_current (i : Interpolator) (d : Nat) :
    (interpolator_update i d).1 = (interpolator_update i d).2.current_pos := by
  simp only [interpolator_update]
  split_ifs <;> rfl

theorem interpolator_update_not_moving (i : Interpolator) (d : Nat)
    (h : i.state ≠ MotionState.moving) :
    interpolator_update i d = (i.current_pos, i) := by
  unfold interpolator_update
  rw [if_pos h]

theorem updRun_not_moving (deltas : List Nat) :
    ∀ i : Interpolator, i.state ≠ MotionState.moving → updRun i deltas = i := by
  induction deltas with
  | nil => intro i _; rfl
  | cons d rest ih =>
      intro i h
      show updRun (interpolator_update i d).2 rest = i
      rw [interpolator_update_not_moving i d h]
      exact ih i h

theorem interpolator_update_reach (i : Interpolator) (d : Nat)
    (hm : i.state = MotionState.moving)
    (hw : i.elapsed_time + d < uint32Mod)
    (hr : i.duration ≤ i.elapsed_time + d) :
    interpolator_update i d =
      (i.target_pos,
        { i with elapsed_time := i.elapsed_time + d, current_pos := i.target_pos
               , state := MotionState.reached }) := by
  simp only [interpolator_update]
  rw [if_neg (by rw [hm]; simp)]
  have he : (i.elapsed_time + d) % uint32Mod = i.elapsed_time + d := Nat.mod_eq_of_lt hw
  rw [he]
  have hcond : (1:ℚ) ≤
      if 0 < i.duration then ((i.elapsed_time + d : Nat) : ℚ) / (i.duration : ℚ) else 1 := by
    split_ifs with hd
    · rw [le_div_iff₀ (by exact_mod_cast hd), one_mul]
      exact_mod_cast hr
    · exact le_refl 1
  rw [if_pos hcond]

theorem interpolator_update_noreach (i : Interpolator) (d : Nat)
    (hm : i.state = MotionState.moving)
    (hw : i.elapsed_time + d < uint32Mod)
    (hr : i.elapsed_time + d < i.duration) :
    interpolator_update i d =
      (interpUpdatePos i (i.elapsed_time + d)
          (((i.elapsed_time + d : Nat) : ℚ) / (i.duration : ℚ)),
        { i with elapsed_time := i.elapsed_time + d
               , current_pos := interpUpdatePos i (i.elapsed_time + d)
                   (((i.elapsed_time + d : Nat) : ℚ) / (i.duration : ℚ)) }) := by
  simp only [interpolator_update]
  rw [if_neg (by rw [hm]; simp)]
  have he : (i.elapsed_time + d) % uint32Mod = i.elapsed_time + d := Nat.mod_eq_of_lt hw
  rw [he]
  have hd : 0 < i.duration := by omega
  rw [if_pos hd]
  have hcond : ¬ (1:ℚ) ≤ ((i.elapsed_time + d : Nat) : ℚ) / (i.duration : ℚ) := by
    rw [not_le, div_lt_one (by exact_mod_cast hd)]
    exact_mod_cast hr
  rw [if_neg hcond]

theorem updRun_reaches (deltas : List Nat) :
    ∀ i : Interpolator, i.state = MotionState.moving →
      i.elapsed_time + deltas.sum < uint32Mod →
      deltas ≠ [] →
      i.duration ≤ i.elapsed_time + deltas.sum →
      (updRun i deltas).current_pos = i.target_pos ∧
        (updRun i deltas).state = MotionState.reached := by
  induction deltas with
  | nil => intro i _ _ hne _; exact absurd rfl hne
  | cons d rest ih =>
      intro i hm hw _ hdur
      rw [List.sum_cons] at hw hdur
      have hfold : updRun i (d :: rest) = updRun (interpolator_update i d).2 rest := rfl
      by_cases hreach : i.duration ≤ i.elapsed_time + d
      · have hstep := interpolator_update_reach i d hm (by omega) hreach
        rw [hfold, hstep]
        rw [updRun_not_moving rest _ (by simp)]
        exact ⟨rfl, rfl⟩
      · have hlt : i.elapsed_time + d < i.duration := by omega
        have hstep := interpolator_update_noreach i d hm (by omega) hlt
        rw [hfold, hstep]
        have hne2 : rest ≠ [] := by
          intro hcontra
          rw [hcontra] at hdur
          simp at hdur
          omega
        exact ih
          { i with elapsed_time := i.elapsed_time + d
                 , current_pos := interpUpdatePos i (i.elapsed_time + d)
                     (((i.elapsed_time + d : Nat) : ℚ) / (i.duration : ℚ)) }
          hm (show i.elapsed_time + d + rest.sum < uint32Mod by omega) hne2
          (show i.duration ≤ i.elapsed_time + d + rest.sum by omega)

/-- C6: refuted as stated; elapsed_time is a uint32, so an accumulated
delta total of at least the duration does not guarantee completion once
the counter wraps. For duration 4000000000 ms (a valid uint32) and two
updates of 3000000000 ms each, the accumulated total 6000000000 exceeds
the duration, yet elapsed_time has wrapped to 1705032704, the state is
still moving, and the returned position is strictly between start and
target instead of the target. -/
theorem interpolator_update_wraps_c6 :
    (updRun (interpolator_set_motion interpolator_init 0 100 4000000000 InterpType.linear)
        [3000000000, 3000000000]).state ≠ MotionState.reached ∧
    (updRun (interpolator_set_motion interpolator_init 0 100 4000000000 InterpType.linear)
        [3000000000, 3000000000]).current_pos ≠ 100 ∧
    4000000000 ≤ (3000000000 + 3000000000 : Nat) := by
  have h1 : interpolator_update
      (interpolator_set_motion interpolator_init 0 100 4000000000 InterpType.linear)
      3000000000 =
      (75, { interpolator_set_motion interpolator_init 0 100 4000000000 InterpType.linear with
              elapsed_time := 3000000000, current_pos := 75 }) := by
    unfold interpolator_update
    norm_num [interpolator_set_motion, interpolator_init, uint32Mod]
    norm_num [interpUpdatePos, interpolate_linear, clampQ]
  constructor
  · show (updRun _ [3000000000, 3000000000]).state ≠ _
    unfold updRun
    simp only [List.foldl_cons, List.foldl_nil]
    rw [h1]
    unfold interpolator_update
    norm_num [interpolator_set_motion, interpolator_init, uint32Mod]
    decide
  constructor
  · unfold updRun
    simp only [List.foldl_cons, List.foldl_nil]
    rw [h1]
    unfold interpolator_update
    norm_num [interpolator_set_motion, interpolator_init, uint32Mod]
    norm_num [interpUpdatePos, interpolate_linear, clampQ]
  · norm_num

/-- C6 (amended): provided the accumulated delta_time total stays below
2 to the 32 (elapsed_time is a uint32 millisecond counter), any nonempty
update sequence whose total reaches the duration ends with the
interpolator latched on exactly the stored target position in the
reached state, for every profile type and also for duration 0; and every
update call returns exactly the current position it stores. -/
theorem interpolator_update_endpoint_c6 (i0 : Interpolator) (start_pos target_pos : ℚ)
    (duration : Nat) (t : InterpType) (deltas : List Nat)
    (hne : deltas ≠ []) (hdur : duration ≤ deltas.sum) (hwrap : deltas.sum < uint32Mod) :
    (updRun (interpolator_set_motion i0 start_pos target_pos duration t) deltas).current_pos =
        target_pos ∧
      (updRun (interpolator_set_motion i0 start_pos target_pos duration t) deltas).state =
        MotionState.reached ∧
      (∀ (j : Interpolator) (d : Nat),
        (interpolator_update j d).1 = (interpolator_update j d).2.current_pos) := by
  have h := updRun_reaches deltas
    (interpolator_set_motion i0 start_pos target_pos duration t)
    rfl (by simpa [interpolator_set_motion] using hwrap) hne
    (by simpa [interpolator_set_motion] using hdur)
  exact ⟨h.1, h.2, interpolator_update_returns_current⟩

/-- Witness for the amended C6 theorem: starting from the zero
interpolator, a 100 ms smoothstep motion from 0 to 90 degrees driven by
two 60 ms updates reaches exactly 90. -/
theorem interpolator_update_endpoint_c6_witness :
    ([60, 60] : List Nat) ≠ [] ∧ (100:Nat) ≤ [60, 60].sum ∧
      ([60, 60] : List Nat).sum < uint32Mod ∧
      ((updRun (interpolator_set_motion interpolator_init 0 90 100 InterpType.sCurve)
          [60, 60]).current_pos = 90 ∧
        (updRun (interpolator_set_motion interpolator_init 0 90 100 InterpType.sCurve)
            [60, 60]).state = MotionState.reached ∧
        (∀ (j : Interpolator) (d : Nat),
          (interpolator_update j d).1 = (interpolator_update j d).2.current_pos)) :=
  ⟨by simp, by simp, by norm_num [uint32Mod],
    interpolator_update_endpoint_c6 interpolator_init 0 90 100 InterpType.sCurve [60, 60]
      (by simp) (by simp) (by norm_num [uint32Mod])⟩

/-! ## Look-ahead planner (src/motion/planner.c)

The 32-slot ring of plan blocks is modelled as the list of live blocks in
tail-to-head (consumption) order; the index arithmetic of the ring itself
is verified in the ring buffer section. The servo map lookup
servo_get_angle inside planner_add_motion is passed in as the
current_angle argument. The float MIN and MAX macros become cMin and
cMax (note the C macros pick the second argument on ties). The libm
square root is the function parameter s. -/

/-- Fuel-driven Newton iteration for the integer square root, descending
from an over-approximation. -/
def isqrtIter : Nat → Nat → Nat → Nat
  | 0, _, g => g
  | fuel + 1, n, g =>
      let g2 := (g + n / g) / 2
      if g2 < g then isqrtIter fuel n g2 else g

/-- Kernel-evaluable integer square root (floor of the real square root
for the inputs used here; 64 Newton steps are ample below 2 to the 64). -/
def isqrt (n : Nat) : Nat :=
  if n ≤ 1 then n else isqrtIter 64 n (n / 2 + 1)

/-- Concrete rational stand-in for the libm sqrtf, used to instantiate
the square-root parameter in closed evaluations: the integer square root
of the input scaled by 10 to the 12, i.e. the real square root truncated
to 6 decimal places (and 0 on non-positive input, where sqrtf has no
rational value). -/
def ratSqrt (x : ℚ) : ℚ :=
  if x ≤ 0 then 0 else (isqrt (⌊x * 10 ^ 12⌋).toNat : ℚ) / 10 ^ 6

/-- The float MIN macro of planner.c: (a) < (b) ? (a) : (b). -/
def cMin (a b : ℚ) : ℚ := if a < b then a else b

/-- The float MAX macro of planner.c: (a) > (b) ? (a) : (b). -/
def cMax (a b : ℚ) : ℚ := if a > b then a else b

/-- PLANNER_BUFFER_SIZE. -/
def PLANNER_BUFFER_SIZE : Nat := 32

/-- MIN_JUNCTION_SPEED (5.0f deg/s). -/
def MIN_JUNCTION_SPEED : ℚ := 5

/-- JUNCTION_DEVIATION (0.05f). -/
def JUNCTION_DEVIATION : ℚ := 1 / 20

/-- plan_block_flags_t. -/
structure PlanBlockFlags where
  recalculate : Bool
  nominal_length : Bool
  junction_valid : Bool
  is_continuous : Bool
  deriving DecidableEq

/-- plan_block_t. -/
structure PlanBlock where
  timestamp_ms : Nat
  servo_id : Nat
  target_angle : ℚ
  max_velocity : ℚ
  acceleration : ℚ
  deceleration : ℚ
  start_angle : ℚ
  distance : ℚ
  abs_distance : ℚ
  entry_speed : ℚ
  exit_speed : ℚ
  max_entry_speed : ℚ
  max_junction_speed : ℚ
  nominal_speed : ℚ
  t_accel : ℚ
  t_const : ℚ
  t_decel : ℚ
  v_max_actual : ℚ
  duration_ms : Nat
  target_speed_pct : Int
  entry_speed_pct : Int
  exit_speed_pct : Int
  accel_rate : Nat
  decel_rate : Nat
  flags : PlanBlockFlags
  valid : Bool

/-- The all-zero block produced by memset in
planner_add_continuous_motion. -/
def zeroPlanBlock : PlanBlock :=
  { timestamp_ms := 0, servo_id := 0, target_angle := 0, max_velocity := 0
  , acceleration := 0, deceleration := 0, start_angle := 0, distance := 0
  , abs_distance := 0, entry_speed := 0, exit_speed := 0, max_entry_speed := 0
  , max_junction_speed := 0, nominal_speed := 0, t_accel := 0, t_const := 0
  , t_decel := 0, v_max_actual := 0, duration_ms := 0, target_speed_pct := 0
  , entry_speed_pct := 0, exit_speed_pct := 0, accel_rate := 0, decel_rate := 0
  , flags := { recalculate := false, nominal_length := false
             , junction_valid := false, is_continuous := false }
  , valid := false }

/-- State of motion_planner_t relevant to buffering and planning: the live
blocks in tail-to-head order plus the continuity-tracking fields (the
run/pause scheduling state is independent of the claims here). -/
structure MotionPlanner where
  blocks : List PlanBlock
  last_servo_id : Nat
  last_target_angle : ℚ

/-- Embedding of planner_init / planner_clear: empty buffer, last servo id
0xFF. -/
def planner_init : MotionPlanner :=
  { blocks := [], last_servo_id := 255, last_target_angle := 0 }

/-- The provisional rest-to-rest trapezoid fit inlined in
planner_add_motion: the pair of the profile (t_accel, t_const, t_decel,
v_max_actual) and the nominal_length flag. -/
def planner_provisional_fit (s : ℚ → ℚ) (absd velocity accel decel2 : ℚ) :
    (ℚ × ℚ × ℚ × ℚ) × Bool :=
  if 0 < absd then
    let d_accel := velocity * velocity / (2 * accel)
    let d_decel := velocity * velocity / (2 * decel2)
    if d_accel + d_decel ≤ absd then
      ((velocity / accel, (absd - d_accel - d_decel) / velocity, velocity / decel2, velocity),
        true)
    else
      let inv_2a := 1 / (2 * accel)
      let inv_2d := 1 / (2 * decel2)
      let v := s (absd / (inv_2a + inv_2d))
      ((v / accel, 0, v / decel2, v), false)
  else ((0, 0, 0, 0), false)

/-- Embedding of planner_add_motion. The start angle is the previous
target when chaining on the same servo, else the current servo angle
(argument current_angle); speeds are initialised to rest, the provisional
trapezoid is fitted, and the block is appended. -/
def planner_add_motion (s : ℚ → ℚ) (st : MotionPlanner) (timestamp_ms : Nat)
    (servo_id : Nat) (target_angle velocity acceleration deceleration : ℚ)
    (current_angle : ℚ) : Bool × MotionPlanner :=
  if st.blocks.length ≥ PLANNER_BUFFER_SIZE then (false, st)
  else
    let start_angle :=
      if 0 < st.blocks.length ∧ st.last_servo_id = servo_id then st.last_target_angle
      else current_angle
    let decel2 := if 0 < deceleration then deceleration else acceleration
    let dist := target_angle - start_angle
    let absd := |dist|
    let fit := planner_provisional_fit s absd velocity acceleration decel2
    let blk : PlanBlock :=
      { timestamp_ms := timestamp_ms, servo_id := servo_id, target_angle := target_angle
      , max_velocity := velocity, acceleration := acceleration, deceleration := decel2
      , start_angle := start_angle, distance := dist, abs_distance := absd
      , entry_speed := 0, exit_speed := 0, max_entry_speed := velocity
      , max_junction_speed := 0, nominal_speed := velocity
      , t_accel := fit.1.1, t_const := fit.1.2.1, t_decel := fit.1.2.2.1
      , v_max_actual := fit.1.2.2.2
      , duration_ms := (⌊(fit.1.1 + fit.1.2.1 + fit.1.2.2.1) * 1000⌋).toNat
      , target_speed_pct := 0, entry_speed_pct := 0, exit_speed_pct := 0
      , accel_rate := 0, decel_rate := 0
      , flags := { recalculate := true, nominal_length := fit.2
                 , junction_valid := false, is_continuous := false }
      , valid := true }
    (true,
      { blocks := st.blocks ++ [blk], last_servo_id := servo_id
      , last_target_angle := target_angle })

/-- Embedding of planner_add_continuous_motion. -/
def planner_add_continuous_motion (st : MotionPlanner) (timestamp_ms : Nat)
    (servo_id : Nat) (target_speed_pct : Int) (accel_rate decel_rate : Nat)
    (duration_ms : Nat) : Bool × MotionPlanner :=
  if st.blocks.length ≥ PLANNER_BUFFER_SIZE then (false, st)
  else if 18 ≤ servo_id then (false, st)
  else
    let t1 : Int := if target_speed_pct > 100 then 100 else target_speed_pct
    let t2 : Int := if t1 < -100 then -100 else t1
    let start_speed : Int :=
      if 0 < st.blocks.length ∧ st.last_servo_id = servo_id then
        match st.blocks.getLast? with
        | some lastBlk => if lastBlk.flags.is_continuous then lastBlk.exit_speed_pct else 0
        | none => 0
      else 0
    let accel2 := if 0 < accel_rate then accel_rate else 50
    let decel2 := if 0 < decel_rate then decel_rate else accel2
    let speed_change : Nat := (t2 - start_speed).natAbs
    let accel_time : ℚ := (speed_change : ℚ) / (accel2 : ℚ)
    let ta : ℚ :=
      if 0 < duration_ms then
        if accel_time < (duration_ms : ℚ) / 1000 then accel_time else (duration_ms : ℚ) / 1000
      else accel_time
    let tc : ℚ := if 0 < duration_ms then (duration_ms : ℚ) / 1000 - ta else 0
    let dur : Nat := if 0 < duration_ms then duration_ms else (⌊accel_time * 1000⌋).toNat
    let blk : PlanBlock :=
      { zeroPlanBlock with
          timestamp_ms := timestamp_ms, servo_id := servo_id
        , target_speed_pct := t2, entry_speed_pct := start_speed, exit_speed_pct := t2
        , accel_rate := accel2, decel_rate := decel2
        , duration_ms := dur, t_accel := ta, t_const := tc, t_decel := 0
        , flags := { recalculate := true, nominal_length := decide (0 < tc)
                   , junction_valid := false, is_continuous := true }
        , valid := true }
    (true,
      { st with blocks := st.blocks ++ [blk], last_servo_id := servo_id })

/-- Embedding of planner_calculate_junction_speed. -/
def planner_calculate_junction_speed (s : ℚ → ℚ) (prev cur : PlanBlock) : ℚ :=
  if prev.servo_id ≠ cur.servo_id then 0
  else if prev.flags.is_continuous ∧ cur.flags.is_continuous then
    let speed_diff := (cur.target_speed_pct - prev.target_speed_pct).natAbs
    if speed_diff < 5 then
      ((min prev.target_speed_pct.natAbs cur.target_speed_pct.natAbs : Nat) : ℚ)
    else
      ((Int.tdiv (prev.target_speed_pct + cur.target_speed_pct) 2).natAbs : ℚ)
  else if ¬ prev.flags.is_continuous ∧ ¬ cur.flags.is_continuous then
    if prev.abs_distance < 1 / 100 ∨ cur.abs_distance < 1 / 100 then MIN_JUNCTION_SPEED
    else
      let a_min := cMin prev.acceleration cur.acceleration
      let v0 := cMin prev.nominal_speed cur.nominal_speed
      let avg_distance := (prev.abs_distance + cur.abs_distance) * (1 / 2)
      let v_dev := s (2 * a_min * JUNCTION_DEVIATION * avg_distance)
      cMax (cMin v0 v_dev) MIN_JUNCTION_SPEED
  else 0

/-- Embedding of planner_recalculate_trapezoid: unchanged below the 0.01
degree distance guard, else the trapezoid or clamped-peak triangle fit
under the current entry and exit speeds. -/
def planner_recalculate_trapezoid (s : ℚ → ℚ) (block : PlanBlock) : PlanBlock :=
  if block.abs_distance < 1 / 100 then block
  else
    let v_entry := block.entry_speed
    let v_exit := block.exit_speed
    let v_max := block.nominal_speed
    let distance := block.abs_distance
    let accel := block.acceleration
    let decel := block.deceleration
    let d_accel := (v_max * v_max - v_entry * v_entry) / (2 * accel)
    let d_decel := (v_max * v_max - v_exit * v_exit) / (2 * decel)
    if d_accel + d_decel ≤ distance then
      let ta := (v_max - v_entry) / accel
      let td := (v_max - v_exit) / decel
      let tc := (distance - d_accel - d_decel) / v_max
      { block with t_accel := ta, t_const := tc, t_decel := td, v_max_actual := v_max
                 , duration_ms := (⌊(ta + tc + td) * 1000⌋).toNat
                 , flags := { block.flags with nominal_length := true } }
    else
      let c1 := 1 / (2 * accel)
      let c2 := 1 / (2 * decel)
      let v_sq := (distance + v_entry * v_entry * c1 + v_exit * v_exit * c2) / (c1 + c2)
      if 0 < v_sq then
        let v0 := s v_sq
        let v1 := if v0 > v_max then v_max else v0
        let ta := (v1 - v_entry) / accel
        let td := (v1 - v_exit) / decel
        { block with t_accel := ta, t_const := 0, t_decel := td, v_max_actual := v1
                   , duration_ms := (⌊(ta + 0 + td) * 1000⌋).toNat
                   , flags := { block.flags with nominal_length := false } }
      else
        let td := (v_entry - v_exit) / decel
        { block with t_accel := 0, t_const := 0, t_decel := td, v_max_actual := v_entry
                   , duration_ms := (⌊(0 + 0 + td) * 1000⌋).toNat
                   , flags := { block.flags with nominal_length := false } }

/-- One reverse-pass update of a block from its successor. The C loop
walks the ring from the newest block backwards, but each update writes
only fields it never reads from the neighbour (it reads only the
successor entry_speed, which the loop never writes), so updating every
block from its original successor is the same function. -/
def planner_reverse_pass_step (s : ℚ → ℚ) (cur next : PlanBlock) : PlanBlock :=
  if ¬ cur.flags.recalculate then cur
  else
    let j :=
      if cur.servo_id = next.servo_id ∧ ¬ cur.flags.junction_valid then
        planner_calculate_junction_speed s cur next
      else if cur.servo_id ≠ next.servo_id then 0
      else cur.max_junction_speed
    let jv :=
      if cur.servo_id = next.servo_id ∧ ¬ cur.flags.junction_valid then true
      else cur.flags.junction_valid
    let v_exit := next.entry_speed
    let v_max_from_accel := s (v_exit * v_exit + 2 * cur.acceleration * cur.abs_distance)
    let me := cMin (cMin cur.nominal_speed v_max_from_accel) j
    let ex := cMin next.entry_speed j
    { cur with max_junction_speed := j, max_entry_speed := me, exit_speed := ex
             , flags := { cur.flags with junction_valid := jv } }

/-- Apply a function of a block and its successor to every block that has
a successor. -/
def mapWithNext (f : PlanBlock → PlanBlock → PlanBlock) : List PlanBlock → List PlanBlock
  | [] => []
  | [b] => [b]
  | b :: c :: rest => f b c :: mapWithNext f (c :: rest)

/-- Update the last element of a list. -/
def updateLast (f : PlanBlock → PlanBlock) : List PlanBlock → List PlanBlock
  | [] => []
  | [b] => [f b]
  | b :: c :: rest => b :: updateLast f (c :: rest)

/-- Update the first element of a list. -/
def updateFirst (f : PlanBlock → PlanBlock) : List PlanBlock → List PlanBlock
  | [] => []
  | b :: rest => f b :: rest

/-- Embedding of planner_reverse_pass: a single block is pinned to rest at
both ends; otherwise the last block exit speed becomes 0, every earlier
block is updated from its successor, and the first block entry speed
becomes 0. -/
def planner_reverse_pass (s : ℚ → ℚ) (bs : List PlanBlock) : List PlanBlock :=
  if bs.length ≤ 1 then
    match bs with
    | [b] => [{ b with entry_speed := 0, exit_speed := 0 }]
    | _ => bs
  else
    updateFirst (fun b => { b with entry_speed := 0 })
      (mapWithNext (planner_reverse_pass_step s)
        (updateLast (fun b => { b with exit_speed := 0 }) bs))

/-- The per-block body of the forward pass: cap the exit speed by the
kinematic reach and the nominal speed, refit the trapezoid, clear the
recalculate flag. -/
def planner_forward_pass_step (s : ℚ → ℚ) (cur : PlanBlock) : PlanBlock :=
  if cur.flags.recalculate then
    let v_max_exit := s (cur.entry_speed * cur.entry_speed +
      2 * cur.acceleration * cur.abs_distance)
    let e1 := cMin v_max_exit cur.exit_speed
    let e2 := cMin e1 cur.nominal_speed
    let cur2 := planner_recalculate_trapezoid s { cur with exit_speed := e2 }
    { cur2 with flags := { cur2.flags with recalculate := false } }
  else cur

/-- Sequential forward traversal: process the current block, then seed the
successor entry speed with the resulting exit speed. -/
def planner_forward_go (s : ℚ → ℚ) : PlanBlock → List PlanBlock → List PlanBlock
  | cur, [] => [planner_forward_pass_step s cur]
  | cur, nxt :: rest =>
      let cur2 := planner_forward_pass_step s cur
      cur2 :: planner_forward_go s { nxt with entry_speed := cur2.exit_speed } rest

/-- Embedding of planner_forward_pass: the first block entry speed is
pinned to 0, then the sequential traversal runs front to back. -/
def planner_forward_pass (s : ℚ → ℚ) : List PlanBlock → List PlanBlock
  | [] => []
  | b :: rest => planner_forward_go s { b with entry_speed := 0 } rest

/-- Embedding of planner_recalculate: reverse pass then forward pass (a
no-op on an empty buffer). -/
def planner_recalculate (s : ℚ → ℚ) (st : MotionPlanner) : MotionPlanner :=
  if st.blocks.length = 0 then st
  else { st with blocks := planner_forward_pass s (planner_reverse_pass s st.blocks) }

/-- Client operations that build planner states. -/
inductive PlannerOp where
  | addMotion (timestamp_ms servo_id : Nat)
      (target_angle velocity acceleration deceleration current_angle : ℚ)
  | addContinuous (timestamp_ms servo_id : Nat) (target_speed_pct : Int)
      (accel_rate decel_rate duration_ms : Nat)
  | recalc
  | discard
  | clear

/-- Execute one operation (dropping the success flag of the add calls). -/
def planner_exec (s : ℚ → ℚ) (st : MotionPlanner) : PlannerOp → MotionPlanner
  | PlannerOp.addMotion ts sid tgt v a d cur =>
      (planner_add_motion s st ts sid tgt v a d cur).2
  | PlannerOp.addContinuous ts sid tsp ar dr dur =>
      (planner_add_continuous_motion st ts sid tsp ar dr dur).2
  | PlannerOp.recalc => planner_recalculate s st
  | PlannerOp.discard => { st with blocks := st.blocks.tail }
  | PlannerOp.clear => planner_init

/-- Run a sequence of operations from the initial planner. -/
def planner_run (s : ℚ → ℚ) (ops : List PlannerOp) : MotionPlanner :=
  ops.foldl (planner_exec s) planner_init

/-- Position adds never request a negative velocity (the command layer
decodes velocities from unsigned fields). -/
def PlannerOpOK : PlannerOp → Prop
  | PlannerOp.addMotion _ _ _ v _ _ _ => 0 ≤ v
  | _ => True

/-- The per-block facts that hold for every block ever present in a
planner buffer: speeds at rest and nonnegative junction and nominal
speeds. -/
def BlockInv (b : PlanBlock) : Prop :=
  b.entry_speed = 0 ∧ b.exit_speed = 0 ∧ 0 ≤ b.max_junction_speed ∧ 0 ≤ b.nominal_speed

theorem cMin_zero_of_nonneg (j : ℚ) (h : 0 ≤ j) : cMin 0 j = 0 := by
  unfold cMin
  split_ifs with hlt
  · rfl
  · linarith

theorem cMin_nonneg_zero (x : ℚ) (hx : 0 ≤ x) : cMin x 0 = 0 := by
  unfold cMin
  split_ifs with hlt
  · linarith
  · rfl

theorem cMax_nonneg_right (a b : ℚ) (hb : 0 ≤ b) : 0 ≤ cMax a b := by
  unfold cMax
  split_ifs with hgt
  · linarith
  · exact hb

theorem junction_speed_nonneg (s : ℚ → ℚ) (prev cur : PlanBlock) :
    0 ≤ planner_calculate_junction_speed s prev cur := by
  unfold planner_calculate_junction_speed
  split_ifs with h1 h2 h3 h4
  · norm_num
  · dsimp only
    split_ifs <;> exact Nat.cast_nonneg _
  · norm_num [MIN_JUNCTION_SPEED]
  · exact cMax_nonneg_right _ _ (by norm_num [MIN_JUNCTION_SPEED])
  · norm_num

theorem planner_recalculate_trapezoid_fields (s : ℚ → ℚ) (b : PlanBlock) :
    (planner_recalculate_trapezoid s b).entry_speed = b.entry_speed ∧
      (planner_recalculate_trapezoid s b).exit_speed = b.exit_speed ∧
      (planner_recalculate_trapezoid s b).max_junction_speed = b.max_junction_speed ∧
      (planner_recalculate_trapezoid s b).nominal_speed = b.nominal_speed := by
  simp only [planner_recalculate_trapezoid]
  split_ifs <;> exact ⟨rfl, rfl, rfl, rfl⟩

theorem planner_reverse_pass_step_inv (s : ℚ → ℚ) (cur next : PlanBlock)
    (hc : BlockInv cur) (hn : BlockInv next) :
    BlockInv (planner_reverse_pass_step s cur next) := by
  obtain ⟨hce, hcx, hcj, hcn⟩ := hc
  obtain ⟨hne, -, -, -⟩ := hn
  unfold planner_reverse_pass_step
  split_ifs
  all_goals
    first
      | exact ⟨hce, hcx, hcj, hcn⟩
      | (refine ⟨hce, ?_, junction_speed_nonneg s cur next, hcn⟩
         show cMin next.entry_speed _ = 0
         rw [hne]
         exact cMin_zero_of_nonneg _ (junction_speed_nonneg s cur next))
      | (refine ⟨hce, ?_, le_refl 0, hcn⟩
         show cMin next.entry_speed _ = 0
         rw [hne]
         exact cMin_zero_of_nonneg _ (le_refl 0))
      | (refine ⟨hce, ?_, hcj, hcn⟩
         show cMin next.entry_speed _ = 0
         rw [hne]
         exact cMin_zero_of_nonneg _ hcj)

theorem mapWithNext_forall {P : PlanBlock → Prop} (f : PlanBlock → PlanBlock → PlanBlock)
    (hf : ∀ b c, P b → P c → P (f b c)) :
    ∀ bs : List PlanBlock, (∀ b ∈ bs, P b) → ∀ b ∈ mapWithNext f bs, P b := by
  intro bs
  induction bs with
  | nil => intro _ b hb; simp [mapWithNext] at hb
  | cons b rest ih =>
      cases rest with
      | nil => intro h b2 hb2; simpa [mapWithNext] using h b2 (by simpa [mapWithNext] using hb2)
      | cons c rest2 =>
          intro h b2 hb2
          rw [show mapWithNext f (b :: c :: rest2) = f b c :: mapWithNext f (c :: rest2)
            from rfl] at hb2
          rcases List.mem_cons.mp hb2 with rfl | hmem
          · exact hf _ _ (h b (by simp)) (h c (by simp))
          · exact ih (fun x hx => h x (List.mem_cons_of_mem _ hx)) b2 hmem

theorem updateLast_forall {P : PlanBlock → Prop} (f : PlanBlock → PlanBlock)
    (hf : ∀ b, P b → P (f b)) :
    ∀ bs : List PlanBlock, (∀ b ∈ bs, P b) → ∀ b ∈ updateLast f bs, P b := by
  intro bs
  induction bs with
  | nil => intro _ b hb; simp [updateLast] at hb
  | cons b rest ih =>
      cases rest with
      | nil =>
          intro h b2 hb2
          rw [show updateLast f [b] = [f b] from rfl] at hb2
          rcases List.mem_singleton.mp hb2 with rfl
          exact hf b (h b (by simp))
      | cons c rest2 =>
          intro h b2 hb2
          rw [show updateLast f (b :: c :: rest2) = b :: updateLast f (c :: rest2)
            from rfl] at hb2
          rcases List.mem_cons.mp hb2 with rfl | hmem
          · exact h b2 (by simp)
          · exact ih (fun x hx => h x (List.mem_cons_of_mem _ hx)) b2 hmem

theorem updateFirst_forall {P : PlanBlock → Prop} (f : PlanBlock → PlanBlock)
    (hf : ∀ b, P b → P (f b)) :
    ∀ bs : List PlanBlock, (∀ b ∈ bs, P b) → ∀ b ∈ updateFirst f bs, P b := by
  intro bs
  cases bs with
  | nil => intro _ b hb; simp [updateFirst] at hb
  | cons b rest =>
      intro h b2 hb2
      rw [show updateFirst f (b :: rest) = f b :: rest from rfl] at hb2
      rcases List.mem_cons.mp hb2 with rfl | hmem
      · exact hf b (h b (by simp))
      · exact h b2 (List.mem_cons_of_mem _ hmem)

theorem planner_reverse_pass_inv (s : ℚ → ℚ) (bs : List PlanBlock)
    (h : ∀ b ∈ bs, BlockInv b) : ∀ b ∈ planner_reverse_pass s bs, BlockInv b := by
  unfold planner_reverse_pass
  split_ifs with hlen
  · match bs, h with
    | [], _ => intro b hb; simp at hb
    | [b0], h =>
        intro b hb
        rcases List.mem_singleton.mp hb with rfl
        obtain ⟨-, -, hj, hn⟩ := h b0 (by simp)
        exact ⟨rfl, rfl, hj, hn⟩
    | b0 :: b1 :: rest, h =>
        intro b hb
        simp only [List.length_cons] at hlen
        omega
  · apply updateFirst_forall
    · intro b hb
      exact ⟨rfl, hb.2.1, hb.2.2.1, hb.2.2.2⟩
    · apply mapWithNext_forall
      · exact planner_reverse_pass_step_inv s
      · apply updateLast_forall
        · intro b hb
          exact ⟨hb.1, rfl, hb.2.2.1, hb.2.2.2⟩
        · exact h

theorem planner_forward_pass_step_inv (s : ℚ → ℚ) (hs : ∀ q, 0 ≤ s q)
    (cur : PlanBlock) (hc : BlockInv cur) :
    BlockInv (planner_forward_pass_step s cur) := by
  obtain ⟨hce, hcx, hcj, hcn⟩ := hc
  unfold planner_forward_pass_step
  split_ifs with h
  · have he2 : cMin (cMin (s (cur.entry_speed * cur.entry_speed +
        2 * cur.acceleration * cur.abs_distance)) cur.exit_speed) cur.nominal_speed = 0 := by
      rw [hcx, cMin_nonneg_zero _ (hs _)]
      exact cMin_zero_of_nonneg _ hcn
    obtain ⟨f1, f2, f3, f4⟩ := planner_recalculate_trapezoid_fields s
      { cur with exit_speed := cMin (cMin (s (cur.entry_speed * cur.entry_speed +
          2 * cur.acceleration * cur.abs_distance)) cur.exit_speed) cur.nominal_speed }
    refine ⟨?_, ?_, ?_, ?_⟩
    · show (planner_recalculate_trapezoid s _).entry_speed = 0
      rw [f1]
      exact hce
    · show (planner_recalculate_trapezoid s _).exit_speed = 0
      rw [f2]
      exact he2
    · show 0 ≤ (planner_recalculate_trapezoid s _).max_junction_speed
      rw [f3]
      exact hcj
    · show 0 ≤ (planner_recalculate_trapezoid s _).nominal_speed
      rw [f4]
      exact hcn
  · exact ⟨hce, hcx, hcj, hcn⟩

theorem planner_forward_go_inv (s : ℚ → ℚ) (hs : ∀ q, 0 ≤ s q) :
    ∀ (rest : List PlanBlock) (cur : PlanBlock), BlockInv cur →
      (∀ b ∈ rest, BlockInv b) → ∀ b ∈ planner_forward_go s cur rest, BlockInv b := by
  intro rest
  induction rest with
  | nil =>
      intro cur hc _ b hb
      rw [show planner_forward_go s cur [] = [planner_forward_pass_step s cur] from rfl] at hb
      rcases List.mem_singleton.mp hb with rfl
      exact planner_forward_pass_step_inv s hs cur hc
  | cons nxt rest2 ih =>
      intro cur hc h b hb
      rw [show planner_forward_go s cur (nxt :: rest2) =
        planner_forward_pass_step s cur ::
          planner_forward_go s
            { nxt with entry_speed := (planner_forward_pass_step s cur).exit_speed } rest2
        from rfl] at hb
      have hc2 := planner_forward_pass_step_inv s hs cur hc
      rcases List.mem_cons.mp hb with rfl | hmem
      · exact hc2
      · have hn := h nxt (by simp)
        have hentry :
            ({ nxt with entry_speed := (planner_forward_pass_step s cur).exit_speed }
              : PlanBlock).entry_speed = 0 := by
          show (planner_forward_pass_step s cur).exit_speed = 0
          exact hc2.2.1
        exact ih { nxt with entry_speed := (planner_forward_pass_step s cur).exit_speed }
          ⟨hentry, hn.2.1, hn.2.2.1, hn.2.2.2⟩
          (fun x hx => h x (List.mem_cons_of_mem _ hx)) b hmem

theorem planner_forward_pass_inv (s : ℚ → ℚ) (hs : ∀ q, 0 ≤ s q)
    (bs : List PlanBlock) (h : ∀ b ∈ bs, BlockInv b) :
    ∀ b ∈ planner_forward_pass s bs, BlockInv b := by
  cases bs with
  | nil => intro b hb; simp [planner_forward_pass] at hb
  | cons b0 rest =>
      intro b hb
      rw [show planner_forward_pass s (b0 :: rest) =
        planner_forward_go s { b0 with entry_speed := 0 } rest from rfl] at hb
      have h0 := h b0 (by simp)
      exact planner_forward_go_inv s hs rest { b0 with entry_speed := 0 }
        ⟨rfl, h0.2.1, h0.2.2.1, h0.2.2.2⟩
        (fun x hx => h x (List.mem_cons_of_mem _ hx)) b hb

theorem planner_recalculate_inv (s : ℚ → ℚ) (hs : ∀ q, 0 ≤ s q)
    (st : MotionPlanner) (h : ∀ b ∈ st.blocks, BlockInv b) :
    ∀ b ∈ (planner_recalculate s st).blocks, BlockInv b := by
  unfold planner_recalculate
  split_ifs with hn
  · exact h
  · exact planner_forward_pass_inv s hs _ (planner_reverse_pass_inv s _ h)

theorem planner_exec_inv (s : ℚ → ℚ) (hs : ∀ q, 0 ≤ s q) (op : PlannerOp)
    (hop : PlannerOpOK op) (st : MotionPlanner) (h : ∀ b ∈ st.blocks, BlockInv b) :
    ∀ b ∈ (planner_exec s st op).blocks, BlockInv b := by
  cases op with
  | addMotion ts sid tgt v a d cur =>
      intro b hb
      simp only [planner_exec, planner_add_motion] at hb
      split_ifs at hb
      all_goals
        first
          | exact h b hb
          | (dsimp only at hb
             simp only [List.mem_append, List.mem_singleton] at hb
             rcases hb with hb | rfl
             · exact h b hb
             · exact ⟨rfl, rfl, le_refl 0, hop⟩)
  | addContinuous ts sid tsp ar dr dur =>
      intro b hb
      simp only [planner_exec, planner_add_continuous_motion] at hb
      split_ifs at hb
      all_goals
        first
          | exact h b hb
          | (dsimp only at hb
             simp only [List.mem_append, List.mem_singleton] at hb
             rcases hb with hb | rfl
             · exact h b hb
             · exact ⟨rfl, rfl, le_refl 0, le_refl 0⟩)
  | recalc => exact planner_recalculate_inv s hs st h
  | discard =>
      intro b hb
      exact h b (List.mem_of_mem_tail hb)
  | clear =>
      intro b hb
      simp [planner_exec, planner_init] at hb

theorem planner_run_inv (s : ℚ → ℚ) (hs : ∀ q, 0 ≤ s q) (ops : List PlannerOp)
    (hops : ∀ op ∈ ops, PlannerOpOK op) :
    ∀ b ∈ (planner_run s ops).blocks, BlockInv b := by
  suffices hgen : ∀ (ops2 : List PlannerOp) (st : MotionPlanner),
      (∀ op ∈ ops2, PlannerOpOK op) → (∀ b ∈ st.blocks, BlockInv b) →
      ∀ b ∈ (ops2.foldl (planner_exec s) st).blocks, BlockInv b by
    exact hgen ops planner_init hops (by intro b hb; simp [planner_init] at hb)
  intro ops2
  induction ops2 with
  | nil => intro st _ h; exact h
  | cons op rest ih =>
      intro st hops2 h
      exact ih (planner_exec s st op)
        (fun x hx => hops2 x (List.mem_cons_of_mem _ hx))
        (planner_exec_inv s hs op (hops2 op (by simp)) st h)

theorem mem_of_getElem?_eq {l : List PlanBlock} {i : Nat} {a : PlanBlock}
    (h : l[i]? = some a) : a ∈ l := by
  induction l generalizing i with
  | nil => simp at h
  | cons b rest ih =>
      cases i with
      | zero =>
          simp only [List.getElem?_cons_zero, Option.some_inj] at h
          exact h ▸ List.mem_cons_self b rest
      | succ j =>
          rw [List.getElem?_cons_succ] at h
          exact List.mem_cons_of_mem _ (ih h)

theorem mem_of_getLast?_eq {l : List PlanBlock} {a : PlanBlock}
    (h : l.getLast? = some a) : a ∈ l := by
  induction l with
  | nil => simp at h
  | cons b rest ih =>
      cases rest with
      | nil =>
          simp only [List.getLast?_singleton, Option.some_inj] at h
          exact h ▸ List.mem_cons_self b []
      | cons c rest2 =>
          rw [List.getLast?_cons_cons] at h
          exact List.mem_cons_of_mem _ (ih h)

/-- C2: after planner_recalculate on any planner state reachable through
the buffering interface (position adds with nonnegative velocity,
continuous adds, recalculations, discards, clears), every pair of
adjacent buffered blocks of the same servo in position mode has the
successor entry speed equal (within 1/10000) to the predecessor exit
speed and bounded by the successor junction limit, the first block is at
entry speed 0 and the last at exit speed 0. (In this code the reverse
pass never raises entry speeds, so all planned entry and exit speeds are
0 and the invariant holds degenerately.) -/
theorem planner_recalculate_continuity_c2 (s : ℚ → ℚ) (hs : ∀ q, 0 ≤ s q)
    (ops : List PlannerOp) (hops : ∀ op ∈ ops, PlannerOpOK op) :
    (∀ (i : Nat) (p q : PlanBlock),
      (planner_recalculate s (planner_run s ops)).blocks[i]? = some p →
      (planner_recalculate s (planner_run s ops)).blocks[i + 1]? = some q →
      p.servo_id = q.servo_id → p.flags.is_continuous = false →
      q.flags.is_continuous = false →
      |q.entry_speed - p.exit_speed| ≤ 1 / 10000 ∧
        q.entry_speed ≤ q.max_junction_speed) ∧
    (∀ p, (planner_recalculate s (planner_run s ops)).blocks.head? = some p →
      p.entry_speed = 0) ∧
    (∀ q, (planner_recalculate s (planner_run s ops)).blocks.getLast? = some q →
      q.exit_speed = 0) := by
  have hinv := planner_recalculate_inv s hs _ (planner_run_inv s hs ops hops)
  refine ⟨?_, ?_, ?_⟩
  · intro i p q hp hq _ _ _
    obtain ⟨-, hpx, -, -⟩ := hinv p (mem_of_getElem?_eq hp)
    obtain ⟨hqe, -, hqj, -⟩ := hinv q (mem_of_getElem?_eq hq)
    constructor
    · rw [hqe, hpx]
      norm_num
    · rw [hqe]
      exact hqj
  · intro p hp
    exact (hinv p (List.mem_of_mem_head? (Option.mem_def.mpr hp))).1
  · intro q hq
    exact (hinv q (mem_of_getLast?_eq hq)).2.1

/-- Witness for C2: two chained position moves for servo 3. -/
theorem planner_recalculate_continuity_c2_witness :
    (∀ q : ℚ, 0 ≤ (fun _ : ℚ => (0 : ℚ)) q) ∧
    (∀ op ∈ [PlannerOp.addMotion 0 3 90 100 200 200 0,
             PlannerOp.addMotion 1000 3 45 100 200 200 0], PlannerOpOK op) ∧
    (∀ p, (planner_recalculate (fun _ : ℚ => (0 : ℚ))
        (planner_run (fun _ : ℚ => (0 : ℚ))
          [PlannerOp.addMotion 0 3 90 100 200 200 0,
           PlannerOp.addMotion 1000 3 45 100 200 200 0])).blocks.head? = some p →
      p.entry_speed = 0) :=
  ⟨fun _ => le_refl 0,
    by
      intro op hop
      simp only [List.mem_cons, List.not_mem_nil, or_false] at hop
      rcases hop with rfl | rfl <;> norm_num [PlannerOpOK],
    (planner_recalculate_continuity_c2 (fun _ : ℚ => (0 : ℚ)) (fun _ => le_refl 0)
      [PlannerOp.addMotion 0 3 90 100 200 200 0,
       PlannerOp.addMotion 1000 3 45 100 200 200 0]
      (by
        intro op hop
        simp only [List.mem_cons, List.not_mem_nil, or_false] at hop
        rcases hop with rfl | rfl <;> norm_num [PlannerOpOK])).2.1⟩

theorem ratSqrt_half : ratSqrt (1 / 2) = 707106 / 1000000 := by
  unfold ratSqrt
  rw [if_neg (by norm_num)]
  rw [show (⌊(1 / 2 : ℚ) * 10 ^ 12⌋) = 500000000000 from by norm_num]
  rw [show Int.toNat 500000000000 = 500000000000 from rfl]
  rw [show isqrt 500000000000 = 707106 from by decide]
  norm_num

/-- C3: refuted as stated; the no-op guard of the provisional fit in
planner_add_motion is distance exactly 0, not distance at most 0.01. A
block commanded over 0.005 degrees (at v = a = d = 100) is fitted with
the triangular profile: its t_accel is sqrt(0.5)/100, about 0.00707
seconds, not 0. -/
theorem planner_add_motion_small_distance_c3 :
    ((planner_add_motion ratSqrt planner_init 0 0 (1 / 200) 100 100 100 0).2.blocks.map
        PlanBlock.t_accel = [707106 / 100000000]) ∧
    (707106 / 100000000 : ℚ) ≠ 0 ∧
    ((planner_add_motion ratSqrt planner_init 0 0 (1 / 200) 100 100 100 0).2.blocks.map
        PlanBlock.abs_distance = [1 / 200]) ∧
    |(1 / 200 : ℚ)| ≤ 1 / 100 := by
  have habs : |(1 / 200 : ℚ)| = 1 / 200 := abs_of_pos (by norm_num)
  have hfit : planner_provisional_fit ratSqrt (1 / 200 : ℚ) 100 100 100 =
      ((707106 / 100000000, 0, 707106 / 100000000, 707106 / 1000000), false) := by
    simp only [planner_provisional_fit]
    rw [if_pos (by norm_num), if_neg (by norm_num)]
    rw [show ((1 : ℚ) / 200) / (1 / (2 * 100) + 1 / (2 * 100)) = 1 / 2 from by norm_num]
    rw [ratSqrt_half]
    norm_num
  have hadd : (planner_add_motion ratSqrt planner_init 0 0 (1 / 200) 100 100 100 0).2.blocks.map
      PlanBlock.t_accel = [(planner_provisional_fit ratSqrt |(1 / 200 : ℚ)| 100 100 100).1.1] ∧
      (planner_add_motion ratSqrt planner_init 0 0 (1 / 200) 100 100 100 0).2.blocks.map
      PlanBlock.abs_distance = [|(1 / 200 : ℚ)|] := by
    simp only [planner_add_motion, planner_init]
    norm_num [PLANNER_BUFFER_SIZE]
  refine ⟨?_, by norm_num, ?_, by rw [habs]; norm_num⟩
  · rw [hadd.1, habs, hfit]
  · rw [hadd.2, habs]

/-- C3 (amended): planner_add_motion fits a no-op profile (all times and
the peak speed 0) exactly when the distance is 0, and
planner_recalculate_trapezoid leaves a block under the 0.01 degree guard
entirely unchanged (rather than zeroing it); neither function
special-cases a nonpositive nominal speed. -/
theorem planner_trapezoid_small_distance_c3 (s : ℚ → ℚ) (velocity accel decel2 : ℚ)
    (b : PlanBlock) (hb : b.abs_distance < 1 / 100) :
    planner_provisional_fit s 0 velocity accel decel2 = ((0, 0, 0, 0), false) ∧
    planner_recalculate_trapezoid s b = b := by
  constructor
  · unfold planner_provisional_fit
    rw [if_neg (by norm_num)]
  · unfold planner_recalculate_trapezoid
    rw [if_pos hb]

/-- Witness for the amended C3 theorem at the all-zero block. -/
theorem planner_trapezoid_small_distance_c3_witness :
    zeroPlanBlock.abs_distance < 1 / 100 ∧
      (planner_provisional_fit ratSqrt 0 100 100 100 = ((0, 0, 0, 0), false) ∧
        planner_recalculate_trapezoid ratSqrt zeroPlanBlock = zeroPlanBlock) :=
  ⟨by norm_num [zeroPlanBlock],
    planner_trapezoid_small_distance_c3 ratSqrt 100 100 100 zeroPlanBlock
      (by norm_num [zeroPlanBlock])⟩

/-- Rendering of claim C4's position-mode formula as stated:
max(min(min of the nominal speeds, sqrt(2 min(a) 0.05 avg distance)), 5),
with the C MIN and MAX macro semantics. -/
def junction_speed_claim_c4 (s : ℚ → ℚ) (prev cur : PlanBlock) : ℚ :=
  cMax
    (cMin (cMin prev.nominal_speed cur.nominal_speed)
      (s (2 * cMin prev.acceleration cur.acceleration * JUNCTION_DEVIATION *
        ((prev.abs_distance + cur.abs_distance) / 2))))
    MIN_JUNCTION_SPEED

/-- Predecessor block of the C4 counterexample: position mode, nominal
speed 100, acceleration 100, distance 0.005 degrees (nonzero). -/
def c4prevBlock : PlanBlock :=
  { zeroPlanBlock with
      servo_id := 7
      abs_distance := 1 / 200
      nominal_speed := 100
      acceleration := 100 }

/-- Successor block of the C4 counterexample: position mode, nominal
speed 100, acceleration 100, distance 100 degrees. -/
def c4curBlock : PlanBlock :=
  { zeroPlanBlock with
      servo_id := 7
      abs_distance := 100
      nominal_speed := 100
      acceleration := 100 }

theorem ratSqrt_junction_arg : ratSqrt (20001 / 40) = 22361238 / 1000000 := by
  unfold ratSqrt
  rw [if_neg (by norm_num)]
  rw [show (⌊(20001 / 40 : ℚ) * 10 ^ 12⌋) = 500025000000000 from by norm_num]
  rw [show Int.toNat 500025000000000 = 500025000000000 from rfl]
  rw [show isqrt 500025000000000 = 22361238 from by decide]
  norm_num

/-- C4: refuted as stated; the position branch of
planner_calculate_junction_speed returns MIN_JUNCTION_SPEED = 5 whenever
either absolute distance is below 0.01 degrees, not only when one is
zero. For two same-servo position blocks with distances 0.005 and 100
(both nonzero), nominal speeds 100 and accelerations 100, the code
returns 5 while the claimed formula evaluates to about 22.36. -/
theorem planner_junction_threshold_c4 :
    planner_calculate_junction_speed ratSqrt c4prevBlock c4curBlock = 5 ∧
    junction_speed_claim_c4 ratSqrt c4prevBlock c4curBlock = 22361238 / 1000000 ∧
    (22361238 / 1000000 : ℚ) ≠ 5 ∧
    c4prevBlock.abs_distance ≠ 0 ∧ c4curBlock.abs_distance ≠ 0 := by
  refine ⟨?_, ?_, by norm_num, by norm_num [c4prevBlock, zeroPlanBlock],
    by norm_num [c4curBlock, zeroPlanBlock]⟩
  · simp only [planner_calculate_junction_speed, c4prevBlock, c4curBlock, zeroPlanBlock]
    norm_num [MIN_JUNCTION_SPEED]
  · simp only [junction_speed_claim_c4, c4prevBlock, c4curBlock, zeroPlanBlock, cMin, cMax]
    norm_num [JUNCTION_DEVIATION, MIN_JUNCTION_SPEED]
    rw [ratSqrt_junction_arg]
    norm_num

/-- C4 (amended): planner_calculate_junction_speed returns 0 for blocks
of different servos or of mixed position and continuous modes; for two
same-servo position blocks it returns the claimed formula
max(min(min nominal, sqrt(2 min(a) 0.05 avg distance)), 5) when both
absolute distances are at least 0.01 degrees, and MIN_JUNCTION_SPEED = 5
when either is below 0.01 degrees. -/
theorem planner_junction_speed_spec_c4 (s : ℚ → ℚ) (prev cur : PlanBlock) :
    (prev.servo_id ≠ cur.servo_id → planner_calculate_junction_speed s prev cur = 0) ∧
    (prev.servo_id = cur.servo_id →
      prev.flags.is_continuous ≠ cur.flags.is_continuous →
      planner_calculate_junction_speed s prev cur = 0) ∧
    (prev.servo_id = cur.servo_id → prev.flags.is_continuous = false →
      cur.flags.is_continuous = false →
      1 / 100 ≤ prev.abs_distance → 1 / 100 ≤ cur.abs_distance →
      planner_calculate_junction_speed s prev cur = junction_speed_claim_c4 s prev cur) ∧
    (prev.servo_id = cur.servo_id → prev.flags.is_continuous = false →
      cur.flags.is_continuous = false →
      (prev.abs_distance < 1 / 100 ∨ cur.abs_distance < 1 / 100) →
      planner_calculate_junction_speed s prev cur = MIN_JUNCTION_SPEED) := by
  refine ⟨?_, ?_, ?_, ?_⟩
  · intro hne
    unfold planner_calculate_junction_speed
    rw [if_pos hne]
  · intro heq hmix
    rcases hp : prev.flags.is_continuous <;> rcases hq : cur.flags.is_continuous <;>
      simp_all [planner_calculate_junction_speed]
  · intro heq hp hq hd1 hd2
    simp only [planner_calculate_junction_speed]
    rw [if_neg (by simp [heq])]
    rw [if_neg (by simp [hp])]
    rw [if_pos (by simp [hp, hq])]
    rw [if_neg (by push_neg; constructor <;> linarith)]
    unfold junction_speed_claim_c4
    have harg : 2 * cMin prev.acceleration cur.acceleration * JUNCTION_DEVIATION *
        ((prev.abs_distance + cur.abs_distance) * (1 / 2)) =
        2 * cMin prev.acceleration cur.acceleration * JUNCTION_DEVIATION *
        ((prev.abs_distance + cur.abs_distance) / 2) := by
      ring
    rw [harg]
  · intro heq hp hq hd
    simp only [planner_calculate_junction_speed]
    rw [if_neg (by simp [heq])]
    rw [if_neg (by simp [hp])]
    rw [if_pos (by simp [hp, hq])]
    rw [if_pos hd]

/-- Block used by the C4 witness: position mode, distance one degree. -/
def c4witnessBlock : PlanBlock :=
  { zeroPlanBlock with
      servo_id := 2
      abs_distance := 1
      nominal_speed := 10
      acceleration := 100 }

/-- Witness for the amended C4 theorem: two same-servo position blocks
with distances of one degree. -/
theorem planner_junction_speed_spec_c4_witness :
    c4witnessBlock.servo_id = c4witnessBlock.servo_id ∧
    (1 / 100 : ℚ) ≤ c4witnessBlock.abs_distance ∧
    planner_calculate_junction_speed (fun _ => 1) c4witnessBlock c4witnessBlock =
      junction_speed_claim_c4 (fun _ => 1) c4witnessBlock c4witnessBlock :=
  ⟨rfl, by norm_num [c4witnessBlock, zeroPlanBlock],
    (planner_junction_speed_spec_c4 (fun _ => 1) c4witnessBlock c4witnessBlock).2.2.1 rfl rfl rfl
      (by norm_num [c4witnessBlock, zeroPlanBlock]) (by norm_num [c4witnessBlock, zeroPlanBlock])⟩

/-- Witness for C10 at capacity 4 with two puts and one get. -/
theorem ring_buffer_fifo_c10_witness :
    (0 : Nat) < 4 ∧
      (rbRun (ring_buffer_init (fun _ => 0) 4) [RBOp.put 11, RBOp.put 22, RBOp.get]).1 =
        (qRun 4 [] [RBOp.put 11, RBOp.put 22, RBOp.get]).1 :=
  ⟨by norm_num,
    (ring_buffer_fifo_c10 (fun _ => 0) 4 (by norm_num)
      [RBOp.put 11, RBOp.put 22, RBOp.get]).2.2⟩

/-- Witness for C5 at the concrete triangular instance of the claim, with
a rational approximation of the square root. -/
theorem calculate_trapezoid_triangular_c5_witness :
    ((0 : ℚ) < 10 ∧ (0 : ℚ) < 100 ∧
      (10 : ℚ) < 100 * 100 / (2 * 100) + 100 * 100 / (2 * 100)) ∧
    calculate_trapezoid_profile (fun _ => 316227766 / 10000000) 10 100 100 100 =
      { t_accel := (fun _ : ℚ => (316227766 / 10000000 : ℚ)) 1000 / 100, t_const := 0
      , t_decel := (fun _ : ℚ => (316227766 / 10000000 : ℚ)) 1000 / 100
      , v_max_actual := (fun _ : ℚ => (316227766 / 10000000 : ℚ)) 1000 } :=
  ⟨⟨by norm_num, by norm_num, by norm_num⟩,
    (calculate_trapezoid_triangular_c5 (fun _ => 316227766 / 10000000) 10 100 100 100
      (by norm_num) (by norm_num) (by norm_num) (by norm_num) (by norm_num)).2.1⟩

/-- Witness for the amended C8 theorem at the default calibration. -/
theorem servo_angle_to_pulse_bounds_c8_witness :
    servo_calibration_ok
        { min_pulse_us := 500, max_pulse_us := 2500, offset_us := 0, reverse := false } ∧
      (500 ≤ servo_angle_to_pulse
          { min_pulse_us := 500, max_pulse_us := 2500, offset_us := 0, reverse := false } 90 ∧
        servo_angle_to_pulse
          { min_pulse_us := 500, max_pulse_us := 2500, offset_us := 0, reverse := false } 90 ≤
          2500 ∧
        (({ min_pulse_us := 500, max_pulse_us := 2500, offset_us := 0, reverse := false }
            : ServoCalibration).offset_us = 0 →
          ({ min_pulse_us := 500, max_pulse_us := 2500, offset_us := 0, reverse := false }
              : ServoCalibration).min_pulse_us ≤
            servo_angle_to_pulse
              { min_pulse_us := 500, max_pulse_us := 2500, offset_us := 0, reverse := false }
              90 ∧
            servo_angle_to_pulse
              { min_pulse_us := 500, max_pulse_us := 2500, offset_us := 0, reverse := false }
              90 ≤
            ({ min_pulse_us := 500, max_pulse_us := 2500, offset_us := 0, reverse := false }
              : ServoCalibration).max_pulse_us)) :=
  ⟨⟨by norm_num, by norm_num, by norm_num⟩,
    servo_angle_to_pulse_bounds_c8
      { min_pulse_us := 500, max_pulse_us := 2500, offset_us := 0, reverse := false } 90
      ⟨by norm_num, by norm_num, by norm_num⟩⟩

end ServoFw
